import Mathlib

/-!
Verification of the sand-engine core of the `strata` terminal UI (the particle
grid engine in `src/sand/engine.rs` and `src/sand/resize.rs`), as a shallow
embedding.  Machine integers are modelled as `Nat` (`u16` stores take an
explicit `% 65536`), the grid is the source's `Vec<Vec<Option<CategoryId>>>`
as `List (List (Option Nat))`, the process-wide boolean random source is an
explicit `Nat → Bool` stream with a cursor, and code that can panic
(out-of-bounds vector indexing) returns `Option`.
-/

set_option maxRecDepth 100000
set_option maxHeartbeats 1000000

namespace Strata

/-- `CategoryId(pub u64)`: an opaque id; the engine only ever compares ids for
equality, so `Nat` is a faithful carrier. -/
abbrev CategoryId := Nat

/-- The engine's grid: `height` rows of `width` cells, each holding at most one
grain's category tag (`Vec<Vec<Option<CategoryId>>>`). -/
abbrev Grid := List (List (Option CategoryId))

/-- `SAND_ENGINE.dot_width` from `src/constants.rs`. -/
def dot_width : Nat := 2

/-- `SAND_ENGINE.dot_height` from `src/constants.rs`. -/
def dot_height : Nat := 4

/-- `SAND_ENGINE.braille_base` from `src/constants.rs` (`0x2800`). -/
def braille_base : Nat := 0x2800

/-- Read `grid[y][x]`.  In the source every read is in bounds; out-of-range
coordinates default to `none` here. -/
def cell (g : Grid) (y x : Nat) : Option CategoryId := (g.getD y []).getD x none

/-- Write `grid[y][x] = v` (identity when out of range, as with `List.set`). -/
def setCell (g : Grid) (y x : Nat) (v : Option CategoryId) : Grid :=
  g.set y ((g.getD y []).set x v)

/-- `vec![vec![None; w]; h]`. -/
def emptyGrid (w h : Nat) : Grid := List.replicate h (List.replicate w none)

/-- `grid.first().map_or(0, |row| row.len())`. -/
def gridWidth (g : Grid) : Nat := (g.head?.map List.length).getD 0

/-- `grid.iter().flat_map(|row| row.iter()).filter(|c| c.is_some()).count()`. -/
def countGrains (g : Grid) : Nat := g.flatten.countP (fun c => c.isSome)

/-- Number of cells holding a grain tagged `k`. -/
def countCat (k : CategoryId) (g : Grid) : Nat := g.flatten.countP (fun c => c = some k)

/-- Number of grains tagged `k` in a lost-grain bucket. -/
def countCatL (k : CategoryId) (l : List CategoryId) : Nat := l.countP (fun c => c = k)

/-- The grid is rectangular of width `w` (every engine grid is). -/
abbrev Rect (g : Grid) (w : Nat) : Prop := ∀ r ∈ g, r.length = w

/-! ## `src/sand/resize.rs` -/

/-- The four ordered buckets of grains cut off by a resize. -/
structure LostGrains where
  left : List CategoryId
  right : List CategoryId
  top : List CategoryId
  bottom : List CategoryId
deriving DecidableEq, Repr

def lostDefault : LostGrains := ⟨[], [], [], []⟩

/-- `kept_window(old_len, new_len) -> (src_start, src_end, dest_offset)`. -/
def kept_window (old_len new_len : Nat) : Nat × Nat × Nat :=
  if new_len < old_len then
    let src_start := (old_len - new_len) / 2
    (src_start, src_start + new_len, 0)
  else if old_len < new_len then
    (0, old_len, (new_len - old_len) / 2)
  else
    (0, old_len, 0)

/-- Row-major coordinate scan `(y, x)` for `y in 0..h`, `x in 0..w`. -/
def rowMajor (h w : Nat) : List (Nat × Nat) :=
  (List.range h).flatMap (fun y => (List.range w).map (fun x => (y, x)))

/-- One iteration of the `classify_lost_grains` double loop. -/
def classifyStep (old : Grid) (xs xe ys ye : Nat) (acc : LostGrains) (yx : Nat × Nat) :
    LostGrains :=
  let y := yx.1
  let x := yx.2
  if xs ≤ x ∧ x < xe ∧ ys ≤ y ∧ y < ye then acc
  else
    match cell old y x with
    | none => acc
    | some cat =>
      let lost_from_left := x < xs
      let lost_from_right := xe ≤ x
      let lost_from_top := y < ys
      let lost_from_bottom := ye ≤ y
      if lost_from_left ∨ lost_from_right then
        let acc1 := if lost_from_left then { acc with left := acc.left ++ [cat] } else acc
        if lost_from_right then { acc1 with right := acc1.right ++ [cat] } else acc1
      else if lost_from_top ∨ lost_from_bottom then
        let acc1 := if lost_from_top then { acc with top := acc.top ++ [cat] } else acc
        if lost_from_bottom then { acc1 with bottom := acc1.bottom ++ [cat] } else acc1
      else acc

/-- `classify_lost_grains`: scan the old grid row-major, skipping the kept
window, and bucket each cut-off grain. -/
def classify_lost_grains (old : Grid) (xs xe ys ye : Nat) : LostGrains :=
  (rowMajor old.length (gridWidth old)).foldl (classifyStep old xs xe ys ye) lostDefault

/-- A band-placement walk: fill the empty cells among `cells` (in order) with
successive grains, stopping when the grain iterator is exhausted
(`break 'outer`) or the cells run out. -/
def fillCells : Grid → List (Nat × Nat) → List CategoryId → Grid
  | g, [], _ => g
  | g, (y, x) :: rest, grains =>
    if cell g y x = none then
      match grains with
      | [] => g
      | c :: gs => fillCells (setCell g y x (some c)) rest gs
    else fillCells g rest grains

/-- `place_left_band` scan order: rows bottom-to-top, columns `0..band_w_px`. -/
def leftBandCells (h band_w_px : Nat) : List (Nat × Nat) :=
  (List.range h).reverse.flatMap (fun y => (List.range band_w_px).map (fun x => (y, x)))

def place_left_band (g : Grid) (grains : List CategoryId) (band_w_px : Nat) : Grid :=
  fillCells g (leftBandCells g.length band_w_px) grains

/-- `place_right_band` scan order: rows bottom-to-top, columns
`(w.saturating_sub(band_w_px)..w).rev()`. -/
def rightBandCells (h w band_w_px : Nat) : List (Nat × Nat) :=
  let start := w - band_w_px
  (List.range h).reverse.flatMap (fun y => ((List.range' start (w - start)).reverse).map (fun x => (y, x)))

def place_right_band (g : Grid) (grains : List CategoryId) (band_w_px : Nat) : Grid :=
  fillCells g (rightBandCells g.length (gridWidth g) band_w_px) grains

/-- `place_top_band` scan order: rows `(0..band_h_px).rev()`, columns `0..w`. -/
def topBandCells (band_h_px w : Nat) : List (Nat × Nat) :=
  (List.range band_h_px).reverse.flatMap (fun y => (List.range w).map (fun x => (y, x)))

def place_top_band (g : Grid) (grains : List CategoryId) (band_h_px : Nat) : Grid :=
  fillCells g (topBandCells band_h_px (gridWidth g)) grains

/-- `place_bottom_band` scan order: rows `h.saturating_sub(band_h_px)..h`,
columns `0..w`. -/
def bottomBandCells (h w band_h_px : Nat) : List (Nat × Nat) :=
  let start := h - band_h_px
  (List.range' start (h - start)).flatMap (fun y => (List.range w).map (fun x => (y, x)))

def place_bottom_band (g : Grid) (grains : List CategoryId) (band_h_px : Nat) : Grid :=
  fillCells g (bottomBandCells g.length (gridWidth g) band_h_px) grains

/-- `place_overflow` scan order: rows bottom-to-top, columns left-to-right
(the source rescans the whole grid from scratch for every grain). -/
def overflowCells (h w : Nat) : List (Nat × Nat) :=
  (List.range h).reverse.flatMap (fun y => (List.range w).map (fun x => (y, x)))

def place_overflow (g : Grid) (grains : List CategoryId) : Grid :=
  grains.foldl
    (fun g c =>
      match (overflowCells g.length (gridWidth g)).find? (fun yx => cell g yx.1 yx.2 = none) with
      | some (y, x) => setCell g y x (some c)
      | none => g)
    g

/-- The copy step's source coordinates: `y_src in ys..ye`, `x_src in xs..xe`. -/
def copyCells (xs xe ys ye : Nat) : List (Nat × Nat) :=
  (List.range' ys (ye - ys)).flatMap (fun y => (List.range' xs (xe - xs)).map (fun x => (y, x)))

/-- `resize_grid(old_grid, new_w, new_h, dot_width, dot_height)`. -/
def resize_grid (old_grid : Grid) (new_w new_h dw dh : Nat) : Grid :=
  let old_h := old_grid.length
  let old_w := gridWidth old_grid
  if old_w = 0 ∨ old_h = 0 then emptyGrid new_w new_h
  else if old_w = new_w ∧ old_h = new_h then old_grid
  else
    let xw := kept_window old_w new_w
    let yw := kept_window old_h new_h
    let copied := (copyCells xw.1 xw.2.1 yw.1 yw.2.1).foldl
      (fun g yx =>
        setCell g (yx.1 - yw.1 + yw.2.2) (yx.2 - xw.1 + xw.2.2) (cell old_grid yx.1 yx.2))
      (emptyGrid new_w new_h)
    let lost := classify_lost_grains old_grid xw.1 xw.2.1 yw.1 yw.2.1
    let new_cell_w := if dw = 0 then 0 else new_w / dw
    let new_cell_h := if dh = 0 then 0 else new_h / dh
    let band_w := min (max (new_cell_w / 40) 2) 6
    let band_h := min (max (new_cell_h / 40) 1) 3
    let band_w_px := min (band_w * dw) new_w
    let band_h_px := min (band_h * dh) new_h
    let g1 := place_left_band copied lost.left band_w_px
    let g2 := place_right_band g1 lost.right band_w_px
    let g3 := place_top_band g2 lost.top band_h_px
    let g4 := place_bottom_band g3 lost.bottom band_h_px
    let left_capacity := band_w_px * new_h
    let right_capacity := band_w_px * new_h
    let top_capacity := band_h_px * new_w
    let bottom_capacity := band_h_px * new_w
    let remaining := (lost.left.drop left_capacity) ++ (lost.right.drop right_capacity)
      ++ (lost.top.drop top_capacity) ++ (lost.bottom.drop bottom_capacity)
    place_overflow g4 remaining

/-! ## `src/sand/engine.rs` -/

structure SandEngine where
  grid : Grid
  width : Nat
  height : Nat
  frame_count : Nat
  grain_count : Nat
deriving DecidableEq, Repr

/-- The process-wide boolean random source (`rand::random::<bool>()`),
as a stream read at an explicit cursor. -/
abbrev Rng := Nat → Bool

/-- One cell step of the `apply_gravity` double loop (in-place mutation is
threaded as state; `w` is read once from `grid[0].len()` before the loop). -/
def apply_gravity_cell (rng : Rng) (w : Nat) (st : Grid × Nat) (yx : Nat × Nat) :
    Grid × Nat :=
  let g := st.1
  let k := st.2
  let y := yx.1
  let x := yx.2
  match cell g y x with
  | none => (g, k)
  | some cat =>
    if cell g (y + 1) x = none then
      (setCell (setCell g (y + 1) x (some cat)) y x none, k)
    else
      let dirRight := rng k
      if dirRight then
        if x + 1 < w ∧ cell g (y + 1) (x + 1) = none then
          (setCell (setCell g (y + 1) (x + 1) (some cat)) y x none, k + 1)
        else (g, k + 1)
      else
        if 1 ≤ x ∧ x - 1 < w ∧ cell g (y + 1) (x - 1) = none then
          (setCell (setCell g (y + 1) (x - 1) (some cat)) y x none, k + 1)
        else (g, k + 1)

/-- `for y in (0..h - 1).rev() { for x in 0..w { ... } }`. -/
def gravityOrder (h w : Nat) : List (Nat × Nat) :=
  (List.range (h - 1)).reverse.flatMap (fun y => (List.range w).map (fun x => (y, x)))

/-- `SandEngine::apply_gravity`.  The source reads `self.grid[0].len()` with no
emptiness check: on a zero-row grid that vector index panics, modelled as
`none`. -/
def apply_gravity (rng : Rng) (k : Nat) (g : Grid) : Option (Grid × Nat) :=
  match g with
  | [] => none
  | r0 :: _ =>
    let h := g.length
    let w := r0.length
    some ((gravityOrder h w).foldl (apply_gravity_cell rng w) (g, k))

/-- `SandEngine::resize(width, height)`.  The `u16` stores
`self.width = width * dot_width as u16` wrap at `2^16`.  Returns `none` when
the `apply_gravity` call panics (which happens exactly when the rebuilt grid
has zero rows). -/
def SandEngine.resize (rng : Rng) (k : Nat) (e : SandEngine) (width height : Nat) :
    Option (SandEngine × Nat) :=
  let w16 := (width * dot_width) % 65536
  let h16 := (height * dot_height) % 65536
  let old_w := if e.grid.isEmpty then 0 else (e.grid.headD []).length
  let old_h := e.grid.length
  let new_w := w16
  let new_h := h16
  if old_w = 0 ∨ old_h = 0 then
    let e2 := { e with width := w16, height := h16, grid := emptyGrid new_w new_h, grain_count := 0 }
    some (e2, k)
  else if new_w = old_w ∧ new_h = old_h then
    some ({ e with width := w16, height := h16 }, k)
  else
    let g := resize_grid e.grid new_w new_h dot_width dot_height
    match apply_gravity rng k g with
    | none => none
    | some gk =>
      let e2 := { e with width := w16, height := h16, grid := gk.1, grain_count := countGrains gk.1 }
      some (e2, gk.2)

/-- `SandEngine::new(width, height)` builds the all-empty engine and calls
`resize`; on the initial empty grid `resize` takes its fresh-allocation branch,
inlined here (see `new_eq_resize_on_empty` below, which checks the inlining
against `SandEngine.resize`). -/
def SandEngine.new (width height : Nat) : SandEngine :=
  { grid := emptyGrid ((width * dot_width) % 65536) ((height * dot_height) % 65536),
    width := (width * dot_width) % 65536,
    height := (height * dot_height) % 65536,
    frame_count := 0,
    grain_count := 0 }

/-- `SandEngine::update`: bump the frame counter, and run a gravity pass on
every other call. -/
def SandEngine.update (rng : Rng) (k : Nat) (e : SandEngine) : Option (SandEngine × Nat) :=
  let e1 := { e with frame_count := e.frame_count + 1 }
  if e1.frame_count % 2 = 0 then
    match apply_gravity rng k e1.grid with
    | none => none
    | some gk => some ({ e1 with grid := gk.1 }, gk.2)
  else some (e1, k)

/-- `SandEngine::clear`: set every cell to `None` in place and zero the
count. -/
def SandEngine.clear (e : SandEngine) : SandEngine :=
  { e with grid := e.grid.map (fun row => row.map (fun _ => none)), grain_count := 0 }

/-- Modelled from the spec: `SandEngine::clear_category` is invoked by the UI
layer (`src/app/event_handlers.rs`, the shift-clear key) but its definition is
not among the provided sources.  Per the spec, the clear-one-category variant
"removes only matching grains, rather than the whole grid", and the
grain-count invariant requires `grain_count` to equal the number of occupied
cells when a public operation returns. -/
def SandEngine.clear_category (e : SandEngine) (id : CategoryId) : SandEngine :=
  let g := e.grid.map (fun row => row.map (fun c => if c = some id then none else c))
  { e with grid := g, grain_count := countGrains g }

/-- The color attached to a rendered span.  The source blends the per-category
RGB colors in `f32`, weighted by each category's share of the occupied
sub-cells; that floating-point blend is kept symbolic here (`blended` carries
the per-category dot tallies), while the `total_colored_dots == 0` branch
yields `white` exactly as in the source. -/
inductive RenderColor where
  | white
  | blended (counts : List (CategoryId × Nat))
deriving DecidableEq, Repr

/-- The braille dot-position-to-bit mapping of `SandEngine::render`. -/
def dot_index (dx dy : Nat) : Nat :=
  match dx, dy with
  | 0, 0 => 0
  | 0, 1 => 1
  | 0, 2 => 2
  | 0, 3 => 6
  | 1, 0 => 3
  | 1, 1 => 4
  | 1, 2 => 5
  | 1, 3 => 7
  | _, _ => 0

/-- `*counts.entry(cat_id).or_insert(0) += 1` on an association list (the
source's `HashMap` tallies; the list keeps first-insertion order as a
deterministic stand-in, and the color it feeds is symbolic anyway). -/
def bump (counts : List (CategoryId × Nat)) (idv : CategoryId) : List (CategoryId × Nat) :=
  match counts with
  | [] => [(idv, 1)]
  | (c, n) :: rest => if c = idv then (c, n + 1) :: rest else (c, n) :: bump rest idv

/-- The sub-cell scan of one terminal cell: `for dy in 0..dot_height { for dx
in 0..dot_width { ... } }`. -/
def blockDots : List (Nat × Nat) :=
  (List.range dot_height).flatMap (fun dy => (List.range dot_width).map (fun dx => (dy, dx)))

/-- One sub-cell step of the render scan: bounds-check the sub-cell
coordinate, and for an occupied sub-cell set its braille bit and tally its
category. -/
def renderDotStep (g : Grid) (grid_h grid_w cy cx : Nat)
    (st : Nat × List (CategoryId × Nat)) (dydx : Nat × Nat) :
    Nat × List (CategoryId × Nat) :=
  if cy * dot_height + dydx.1 < grid_h ∧ cx * dot_width + dydx.2 < grid_w then
    match cell g (cy * dot_height + dydx.1) (cx * dot_width + dydx.2) with
    | some cat_id => (st.1 ||| (1 <<< dot_index dydx.2 dydx.1), bump st.2 cat_id)
    | none => st
  else st

/-- One terminal cell of `SandEngine::render`: the accumulated dot mask and
category tallies, then the glyph `braille_base + dots` (always a valid braille
codepoint, so the `unwrap_or(' ')` never fires) and the color. -/
def renderCell (g : Grid) (grid_h grid_w cy cx : Nat) : Nat × RenderColor :=
  let st := blockDots.foldl (renderDotStep g grid_h grid_w cy cx) (0, [])
  let total_colored_dots := (st.2.map (fun p => p.2)).sum
  (braille_base + st.1,
    if 0 < total_colored_dots then RenderColor.blended st.2 else RenderColor.white)

/-- `SandEngine::render`: `cell_h = self.height / dot_height` lines of
`cell_w = self.width` spans (the category color table passed by the caller
only feeds the symbolic blend and is omitted). -/
def SandEngine.render (e : SandEngine) : List (List (Nat × RenderColor)) :=
  let cell_w := e.width
  let cell_h := e.height / dot_height
  let grid_h := e.grid.length
  let grid_w := gridWidth e.grid
  (List.range cell_h).map (fun cy =>
    (List.range cell_w).map (fun cx => renderCell e.grid grid_h grid_w cy cx))

/-! ## State codec -/

structure SandStateGrain where
  x : Nat
  y : Nat
  category_id : Nat
deriving DecidableEq, Repr

structure SandState where
  version : Nat
  grid_width : Nat
  grid_height : Nat
  grains : List SandStateGrain
deriving DecidableEq, Repr

/-- `SandState::VERSION`. -/
def stateVersion : Nat := 1

/-- `SandEngine::snapshot_state`: sparse row-major list of the occupied
cells. -/
def SandEngine.snapshot_state (e : SandEngine) : SandState :=
  { version := stateVersion,
    grid_width := gridWidth e.grid,
    grid_height := e.grid.length,
    grains := e.grid.enum.flatMap (fun yrow =>
      yrow.2.enum.filterMap (fun xc =>
        xc.2.map (fun idv => SandStateGrain.mk xc.1 yrow.1 idv))) }

/-- Remap a snapshot grain's id to 0 when it is not among the caller-supplied
valid category ids. -/
def normalizeId (valid : List CategoryId) (idv : CategoryId) : CategoryId :=
  if idv ∈ valid then idv else 0

/-- One grain of the `restore_state` loop: skip out-of-range coordinates,
otherwise write the normalized id. -/
def placeGrain (w h : Nat) (valid : List CategoryId) (g : Grid) (grain : SandStateGrain) :
    Grid :=
  if w ≤ grain.x ∨ h ≤ grain.y then g
  else setCell g grain.y grain.x (some (normalizeId valid grain.category_id))

/-- `SandEngine::restore_state(state, valid_category_ids)`. -/
def SandEngine.restore_state (e : SandEngine) (state : SandState) (valid : List CategoryId) :
    SandEngine :=
  if state.version ≠ stateVersion then e
  else if state.grid_width = 0 ∨ state.grid_height = 0 then e.clear
  else
    let restored := state.grains.foldl (placeGrain state.grid_width state.grid_height valid)
      (emptyGrid state.grid_width state.grid_height)
    let target_height := e.grid.length
    let target_width := gridWidth e.grid
    let newGrid :=
      if target_width = 0 ∨ target_height = 0 then restored
      else if target_width = state.grid_width ∧ target_height = state.grid_height then restored
      else resize_grid restored target_width target_height dot_width dot_height
    { e with grid := newGrid, grain_count := countGrains newGrid }

/-! ## Concrete scenarios used by the claim audits -/

/-- Old grid for the C1 scenario: 4 rows × 12 columns, grains in column 0 and
in columns 2–5 (20 grains). -/
def c1_old : Grid :=
  List.replicate 4 ((List.range 12).map (fun x => if x = 0 ∨ (2 ≤ x ∧ x < 6) then some 1 else none))

def c1_engine : SandEngine := ⟨c1_old, 12, 4, 0, 20⟩

/-- Old grid for the C3 scenario: 48 rows × 4 columns, rows 0–29 full
(120 grains). -/
def c3_old : Grid :=
  (List.range 48).map (fun y => List.replicate 4 (if y < 30 then some 1 else none))

def c3_engine : SandEngine := ⟨c3_old, 4, 48, 0, 120⟩

/-! ## Helper lemmas -/

theorem getD_map_rows (f : Option CategoryId → Option CategoryId) (g : Grid) (y : Nat) :
    (g.map (List.map f)).getD y [] = List.map f (g.getD y []) := by
  rw [List.getD_eq_getElem?_getD, List.getD_eq_getElem?_getD, List.getElem?_map]
  cases g[y]? <;> simp

theorem getD_map_row (f : Option CategoryId → Option CategoryId) (hf : f none = none)
    (r : List (Option CategoryId)) (x : Nat) :
    (r.map f).getD x none = f (r.getD x none) := by
  rw [List.getD_eq_getElem?_getD, List.getD_eq_getElem?_getD, List.getElem?_map]
  cases r[x]? <;> simp [hf]

theorem cell_map (f : Option CategoryId → Option CategoryId) (hf : f none = none)
    (g : Grid) (y x : Nat) :
    cell (g.map (List.map f)) y x = f (cell g y x) := by
  unfold cell
  rw [getD_map_rows, getD_map_row f hf]

/-- `SandEngine::new` really is the empty-grid branch of `SandEngine::resize`
applied to the freshly constructed engine (justifies inlining it in
`SandEngine.new`). -/
theorem new_eq_resize_on_empty (rng : Rng) (k w h a b c fc : Nat) :
    SandEngine.resize rng k ⟨[], a, b, fc, c⟩ w h =
      some ({ SandEngine.new w h with frame_count := fc }, k) := by
  simp [SandEngine.resize, SandEngine.new]

/-! ## Claims -/

/-- C1: the claim says a shrink whose destination capacity still exceeds the
grain count N conserves all N grains.  The code violates this: on a 4×12 grid
holding 20 grains (column 0 plus columns 2–5), shrinking to 8×4 — capacity 32,
which exceeds 20 — yields 16 grains, because `resize_grid` computes band
overflow as `bucket.skip(full band area)` instead of skipping only the grains
actually placed, so the 4 left-bucket grains vanish when the left band is
pre-occupied by copied grains.  The result is 16 for either constant value of
the gravity pass's random direction stream. -/
theorem C1_shrink_with_sufficient_capacity_drops_grains :
    countGrains c1_old = 20 ∧
    (SandEngine.resize (fun _ => true) 0 c1_engine 4 1).map
      (fun p => p.1.grid.length * gridWidth p.1.grid) = some 32 ∧
    (SandEngine.resize (fun _ => true) 0 c1_engine 4 1).map
      (fun p => p.1.grain_count) = some 16 ∧
    (SandEngine.resize (fun _ => false) 0 c1_engine 4 1).map
      (fun p => p.1.grain_count) = some 16 := by
  decide

/-- C2: the claim says no public operation panics and a zero-capacity grid
makes every operation a no-op; in particular `update` on an engine whose grid
is empty completes without panicking.  The code violates this:
`SandEngine::new(1, 0)` produces a zero-row grid, and the second `update` call
runs `apply_gravity`, which reads `self.grid[0].len()` — an index-out-of-bounds
panic on the empty vector (modelled as `none`). -/
theorem C2_update_panics_on_empty_grid :
    (SandEngine.new 1 0).grid = [] ∧
    ((SandEngine.update (fun _ => true) 0 (SandEngine.new 1 0)).bind
      (fun p => SandEngine.update (fun _ => true) p.2 p.1)) = none := by
  decide

/-- C3: the claim says a resize to equal-or-larger total capacity conserves
the grain count for every outcome of the settling pass's random choices.  The
code violates this: a 48×4 grid (capacity 192) with its top 30 rows full (120
grains), resized to 12×16 (capacity 192, equal), yields 104 grains — 16 grains
of the top bucket sit at indices between the number actually placed in the
partially pre-occupied top band (48) and the full band area used by the
`skip` (64), and are silently dropped although 72 cells remain empty.  Shown
for both constant random streams; the settling pass only moves grains, so no
random outcome restores the count. -/
theorem C3_grow_capacity_resize_drops_grains :
    countGrains c3_old = 120 ∧
    c3_old.length * gridWidth c3_old = 192 ∧
    (SandEngine.resize (fun _ => true) 0 c3_engine 8 3).map
      (fun p => p.1.grid.length * gridWidth p.1.grid) = some 192 ∧
    (SandEngine.resize (fun _ => true) 0 c3_engine 8 3).map
      (fun p => p.1.grain_count) = some 104 ∧
    (SandEngine.resize (fun _ => false) 0 c3_engine 8 3).map
      (fun p => p.1.grain_count) = some 104 := by
  decide

/-- C4: `clear()` empties every cell and resets `grain_count` to 0, and the
category-scoped variant removes exactly the grains tagged with the given id,
leaves every other grain in place, and leaves `grain_count` equal to the
number of occupied cells (`clear_category` is modelled from the spec, its
definition not being among the provided sources). -/
theorem C4_clear_and_clear_category (e : SandEngine) (id : CategoryId) :
    (∀ y x, cell (e.clear_category id).grid y x =
      (if cell e.grid y x = some id then none else cell e.grid y x)) ∧
    (e.clear_category id).grain_count = countGrains (e.clear_category id).grid ∧
    (∀ y x, cell (SandEngine.clear e).grid y x = none) ∧
    (SandEngine.clear e).grain_count = 0 := by
  refine ⟨fun y x => ?_, rfl, fun y x => ?_, rfl⟩
  · exact cell_map (fun c => if c = some id then none else c) rfl e.grid y x
  · exact cell_map (fun _ => none) rfl e.grid y x

/-- C10: `restore_state` with a current-version snapshot whose width or height
is 0 empties every cell of the live grid, zeroes `grain_count`, and leaves
the live grid's shape (row count and each row's length) and the engine's
stored dimensions unchanged. -/
theorem C10_restore_zero_dims_clears (e : SandEngine) (st : SandState)
    (valid : List CategoryId) (hv : st.version = stateVersion)
    (h0 : st.grid_width = 0 ∨ st.grid_height = 0) :
    (e.restore_state st valid).grain_count = 0 ∧
    (e.restore_state st valid).grid.length = e.grid.length ∧
    (∀ y, ((e.restore_state st valid).grid.getD y []).length = (e.grid.getD y []).length) ∧
    (∀ y x, cell (e.restore_state st valid).grid y x = none) ∧
    (e.restore_state st valid).width = e.width ∧
    (e.restore_state st valid).height = e.height := by
  have hre : e.restore_state st valid = SandEngine.clear e := by
    unfold SandEngine.restore_state
    rw [if_neg (by simp [hv]), if_pos h0]
  rw [hre]
  refine ⟨rfl, by simp [SandEngine.clear], fun y => ?_, fun y x => ?_, rfl, rfl⟩
  · show ((e.grid.map (List.map (fun _ => none))).getD y []).length = _
    rw [getD_map_rows, List.length_map]
  · exact cell_map (fun _ => none) rfl e.grid y x

theorem renderFold_of_block_empty (g : Grid) (grid_h grid_w cy cx : Nat) :
    ∀ (l : List (Nat × Nat)),
      (∀ d ∈ l, ¬ (cy * dot_height + d.1 < grid_h ∧ cx * dot_width + d.2 < grid_w ∧
        (cell g (cy * dot_height + d.1) (cx * dot_width + d.2)).isSome)) →
      ∀ st, l.foldl (renderDotStep g grid_h grid_w cy cx) st = st := by
  intro l
  induction l with
  | nil => intro _ _; rfl
  | cons d rest ih =>
    intro hl st
    have hd := hl d (List.mem_cons_self _ _)
    have hstep : renderDotStep g grid_h grid_w cy cx st d = st := by
      unfold renderDotStep
      by_cases hb : cy * dot_height + d.1 < grid_h ∧ cx * dot_width + d.2 < grid_w
      · rw [if_pos hb]
        cases hc : cell g (cy * dot_height + d.1) (cx * dot_width + d.2) with
        | none => rfl
        | some c => exact absurd ⟨hb.1, hb.2, by rw [hc]; rfl⟩ hd
      · rw [if_neg hb]
    rw [List.foldl_cons, hstep]
    exact ih (fun d' hd' => hl d' (List.mem_cons_of_mem _ hd')) st

def c9_engine : SandEngine := ⟨emptyGrid 2 4, 2, 4, 0, 0⟩

/-- C9: `render` always returns exactly `height / dot_height` lines (`height`
being the engine's stored sub-cell height), every line holds exactly `width`
spans (`width` being the stored sub-cell width), and a terminal cell whose
sub-cell block is entirely unoccupied is emitted as the bare `braille_base`
glyph (mask 0) colored white. -/
theorem C9_render_shape (e : SandEngine) :
    (SandEngine.render e).length = e.height / dot_height ∧
    (∀ line ∈ SandEngine.render e, line.length = e.width) ∧
    (∀ cy cx, cy < e.height / dot_height → cx < e.width →
      (∀ dy, dy < dot_height → ∀ dx, dx < dot_width →
        ¬ (cy * dot_height + dy < e.grid.length ∧ cx * dot_width + dx < gridWidth e.grid ∧
          (cell e.grid (cy * dot_height + dy) (cx * dot_width + dx)).isSome)) →
      ((SandEngine.render e).getD cy []).getD cx (0, RenderColor.white) =
        (braille_base, RenderColor.white)) := by
  refine ⟨by simp [SandEngine.render], ?_, ?_⟩
  · intro line hline
    unfold SandEngine.render at hline
    simp only [List.mem_map] at hline
    obtain ⟨cy, -, hline⟩ := hline
    rw [← hline]
    simp
  · intro cy cx hcy hcx hempty
    have hrow : (SandEngine.render e).getD cy [] =
        (List.range e.width).map (fun cx => renderCell e.grid e.grid.length (gridWidth e.grid) cy cx) := by
      unfold SandEngine.render
      rw [List.getD_eq_getElem?_getD, List.getElem?_map, List.getElem?_range hcy]
      rfl
    rw [hrow, List.getD_eq_getElem?_getD, List.getElem?_map, List.getElem?_range hcx]
    show renderCell e.grid e.grid.length (gridWidth e.grid) cy cx = _
    unfold renderCell
    rw [renderFold_of_block_empty e.grid e.grid.length (gridWidth e.grid) cy cx blockDots ?he (0, [])]
    · rfl
    · intro d hd
      have hd14 : d.1 < dot_height ∧ d.2 < dot_width := by
        unfold blockDots at hd
        simp only [List.mem_flatMap, List.mem_map, List.mem_range] at hd
        obtain ⟨dy, hdy, dx, hdx, hdd⟩ := hd
        rw [← hdd]
        exact ⟨hdy, hdx⟩
      exact hempty d.1 hd14.1 d.2 hd14.2

/-- C9 at a concrete input: a freshly built 1-terminal-cell engine renders its
single empty block as the bare braille glyph colored white. -/
theorem C9_render_shape_witness :
    ((SandEngine.render c9_engine).getD 0 []).getD 0 (0, RenderColor.white) =
      (braille_base, RenderColor.white) :=
  (C9_render_shape c9_engine).2.2 0 0 (by decide) (by decide) (by decide)

/-! ## C5: characterization of loss classification -/

/-- The left bucket as the claim reads it: the tags of all grains whose column
lies left of the kept window, in row-major scan order of the old grid. -/
def leftSpec (old : Grid) (xs : Nat) : List CategoryId :=
  (rowMajor old.length (gridWidth old)).filterMap
    (fun yx => if yx.2 < xs then cell old yx.1 yx.2 else none)

/-- The right bucket: grains whose column lies right of the kept window, in
row-major scan order. -/
def rightSpec (old : Grid) (xe : Nat) : List CategoryId :=
  (rowMajor old.length (gridWidth old)).filterMap
    (fun yx => if xe ≤ yx.2 then cell old yx.1 yx.2 else none)

/-- The top bucket: grains horizontally inside the kept window but above it —
never a grain also cut horizontally. -/
def topSpec (old : Grid) (xs xe ys : Nat) : List CategoryId :=
  (rowMajor old.length (gridWidth old)).filterMap
    (fun yx => if xs ≤ yx.2 ∧ yx.2 < xe ∧ yx.1 < ys then cell old yx.1 yx.2 else none)

/-- The bottom bucket: grains horizontally inside the kept window but below
it. -/
def bottomSpec (old : Grid) (xs xe ye : Nat) : List CategoryId :=
  (rowMajor old.length (gridWidth old)).filterMap
    (fun yx => if xs ≤ yx.2 ∧ yx.2 < xe ∧ ye ≤ yx.1 then cell old yx.1 yx.2 else none)

theorem toList_append_filterMap {α β : Type} (f : α → Option β) (c : α) (l : List α) :
    (f c).toList ++ l.filterMap f = (c :: l).filterMap f := by
  cases h : f c <;> simp [List.filterMap_cons, h]

theorem classifyStep_eq (old : Grid) (xs xe ys ye : Nat) (acc : LostGrains) (c : Nat × Nat) :
    classifyStep old xs xe ys ye acc c =
      ⟨acc.left ++ (if c.2 < xs then cell old c.1 c.2 else none).toList,
       acc.right ++ (if xe ≤ c.2 then cell old c.1 c.2 else none).toList,
       acc.top ++ (if xs ≤ c.2 ∧ c.2 < xe ∧ c.1 < ys then cell old c.1 c.2 else none).toList,
       acc.bottom ++ (if xs ≤ c.2 ∧ c.2 < xe ∧ ye ≤ c.1 then cell old c.1 c.2 else none).toList⟩ := by
  obtain ⟨y, x⟩ := c
  simp only [classifyStep]
  cases hc : cell old y x with
  | none => split_ifs <;> simp
  | some cat => split_ifs <;> first | (exfalso; omega) | simp

theorem classifyFold (old : Grid) (xs xe ys ye : Nat) :
    ∀ (cells : List (Nat × Nat)) (acc : LostGrains),
      cells.foldl (classifyStep old xs xe ys ye) acc =
        ⟨acc.left ++ cells.filterMap (fun yx => if yx.2 < xs then cell old yx.1 yx.2 else none),
         acc.right ++ cells.filterMap (fun yx => if xe ≤ yx.2 then cell old yx.1 yx.2 else none),
         acc.top ++ cells.filterMap
           (fun yx => if xs ≤ yx.2 ∧ yx.2 < xe ∧ yx.1 < ys then cell old yx.1 yx.2 else none),
         acc.bottom ++ cells.filterMap
           (fun yx => if xs ≤ yx.2 ∧ yx.2 < xe ∧ ye ≤ yx.1 then cell old yx.1 yx.2 else none)⟩ := by
  intro cells
  induction cells with
  | nil => intro acc; simp
  | cons c rest ih =>
    intro acc
    rw [List.foldl_cons, classifyStep_eq, ih]
    simp only [← toList_append_filterMap, List.append_assoc]

theorem classify_eq_spec (old : Grid) (xs xe ys ye : Nat) :
    classify_lost_grains old xs xe ys ye =
      ⟨leftSpec old xs, rightSpec old xe, topSpec old xs xe ys, bottomSpec old xs xe ye⟩ := by
  unfold classify_lost_grains leftSpec rightSpec topSpec bottomSpec
  rw [classifyFold]
  simp [lostDefault]

/-- C5: during loss classification, a grain cut on both axes is bucketed only
by its column (left of the kept window → left bucket, right of it → right
bucket) and never into top or bottom; the four buckets list the cut grains'
category ids in the row-major scan order of the old grid (row 0 first, columns
left to right), keeping each grain's tag.  Stated as an exact characterization
of `classify_lost_grains`: left/right membership depends only on the column
bound, and top/bottom membership requires the column to be inside the
horizontal window. -/
theorem C5_classification_characterization (old : Grid) (xs xe ys ye : Nat) :
    classify_lost_grains old xs xe ys ye =
      ⟨leftSpec old xs, rightSpec old xe, topSpec old xs xe ys, bottomSpec old xs xe ye⟩ :=
  classify_eq_spec old xs xe ys ye

/-! ## Cell/setCell algebra -/

theorem getD_set_rows (g : Grid) (y' y : Nat) (r : List (Option CategoryId)) :
    (g.set y' r).getD y [] = if y' = y ∧ y' < g.length then r else g.getD y [] := by
  rw [List.getD_eq_getElem?_getD, List.getElem?_set, List.getD_eq_getElem?_getD]
  by_cases h1 : y' = y
  · subst h1
    by_cases h2 : y' < g.length
    · simp [h2]
    · simp [h2, List.getElem?_eq_none (Nat.le_of_not_lt h2)]
  · simp [h1]

theorem row_getD_set (r : List (Option CategoryId)) (x' x : Nat) (v : Option CategoryId) :
    (r.set x' v).getD x none = if x' = x ∧ x' < r.length then v else r.getD x none := by
  rw [List.getD_eq_getElem?_getD, List.getElem?_set, List.getD_eq_getElem?_getD]
  by_cases h1 : x' = x
  · subst h1
    by_cases h2 : x' < r.length
    · simp [h2]
    · simp [h2, List.getElem?_eq_none (Nat.le_of_not_lt h2)]
  · simp [h1]

theorem cell_setCell (g : Grid) (y' x' y x : Nat) (v : Option CategoryId) :
    cell (setCell g y' x' v) y x =
      if y' = y ∧ y' < g.length ∧ x' = x ∧ x' < (g.getD y []).length then v
      else cell g y x := by
  unfold cell setCell
  rw [getD_set_rows]
  by_cases h1 : y' = y ∧ y' < g.length
  · rw [if_pos h1, row_getD_set]
    obtain ⟨hy, hl⟩ := h1
    subst hy
    by_cases h2 : x' = x ∧ x' < (g.getD y' []).length
    · rw [if_pos h2, if_pos ⟨rfl, hl, h2⟩]
    · rw [if_neg h2, if_neg (by tauto)]
  · rw [if_neg h1, if_neg (by tauto)]

theorem cell_setCell_self (g : Grid) (y x : Nat) (v : Option CategoryId)
    (hy : y < g.length) (hx : x < (g.getD y []).length) :
    cell (setCell g y x v) y x = v := by
  rw [cell_setCell]
  exact if_pos ⟨rfl, hy, rfl, hx⟩

theorem cell_setCell_ne (g : Grid) (y' x' y x : Nat) (v : Option CategoryId)
    (h : y' ≠ y ∨ x' ≠ x) :
    cell (setCell g y' x' v) y x = cell g y x := by
  rw [cell_setCell]
  exact if_neg (by tauto)

theorem length_setCell (g : Grid) (y x : Nat) (v : Option CategoryId) :
    (setCell g y x v).length = g.length := by
  unfold setCell
  exact List.length_set ..

theorem rowlen_setCell (g : Grid) (y x : Nat) (v : Option CategoryId) (y0 : Nat) :
    ((setCell g y x v).getD y0 []).length = (g.getD y0 []).length := by
  unfold setCell
  rw [getD_set_rows]
  split_ifs with h
  · rw [List.length_set, h.1]
  · rfl

theorem length_emptyGrid (w h : Nat) : (emptyGrid w h).length = h := by
  unfold emptyGrid
  exact List.length_replicate ..

theorem rowlen_emptyGrid (w h y0 : Nat) (hy0 : y0 < h) :
    ((emptyGrid w h).getD y0 []).length = w := by
  unfold emptyGrid
  rw [List.getD_eq_getElem?_getD, List.getElem?_replicate, if_pos hy0, Option.getD_some,
    List.length_replicate]

theorem cell_emptyGrid (w h y x : Nat) : cell (emptyGrid w h) y x = none := by
  unfold cell emptyGrid
  rw [List.getD_eq_getElem?_getD (List.replicate h (List.replicate w none)) y [],
    List.getElem?_replicate]
  by_cases hy : y < h
  · rw [if_pos hy, Option.getD_some, List.getD_eq_getElem?_getD, List.getElem?_replicate]
    by_cases hx : x < w
    · rw [if_pos hx]
      rfl
    · rw [if_neg hx]
      rfl
  · rw [if_neg hy]
    rfl

theorem countGrains_pos_of_cell (g : Grid) (y x : Nat) (c : CategoryId)
    (h : cell g y x = some c) : 0 < countGrains g := by
  unfold countGrains
  rw [List.countP_pos_iff]
  unfold cell at h
  by_cases hy : y < g.length
  · by_cases hx : x < (g.getD y []).length
    · rw [List.getD_eq_getElem?_getD (g.getD y []), List.getElem?_eq_getElem hx,
        Option.getD_some] at h
      refine ⟨some c, List.mem_flatten.mpr ⟨g.getD y [], ?_, ?_⟩, rfl⟩
      · rw [List.getD_eq_getElem?_getD, List.getElem?_eq_getElem hy, Option.getD_some]
        exact List.getElem_mem hy
      · rw [← h]
        exact List.getElem_mem hx
    · rw [List.getD_eq_default _ _ (Nat.le_of_not_lt hx)] at h
      exact absurd h (by simp)
  · rw [List.getD_eq_default _ _ (Nat.le_of_not_lt hy)] at h
    exact absurd h (by simp)

/-! ## C8: restore writes -/

theorem placeGrain_length (w h : Nat) (valid : List CategoryId) (g : Grid)
    (b : SandStateGrain) : (placeGrain w h valid g b).length = g.length := by
  unfold placeGrain
  split_ifs
  · rfl
  · exact length_setCell ..

theorem placeGrain_rowlen (w h : Nat) (valid : List CategoryId) (g : Grid)
    (b : SandStateGrain) (y0 : Nat) :
    ((placeGrain w h valid g b).getD y0 []).length = (g.getD y0 []).length := by
  unfold placeGrain
  split_ifs
  · rfl
  · exact rowlen_setCell ..

theorem restoreFold_sticky (w h : Nat) (valid : List CategoryId) (x y : Nat)
    (cid : CategoryId) :
    ∀ (grains : List SandStateGrain) (g : Grid),
      g.length = h → (∀ y0, y0 < h → (g.getD y0 []).length = w) →
      x < w → y < h →
      cell g y x = some (normalizeId valid cid) →
      (∀ gr ∈ grains, gr.x = x ∧ gr.y = y → gr.category_id = cid) →
      cell (grains.foldl (placeGrain w h valid) g) y x = some (normalizeId valid cid) := by
  intro grains
  induction grains with
  | nil => intro g _ _ _ _ hcell _; exact hcell
  | cons b rest ih =>
    intro g hgl hgw hx hy hcell hsame
    rw [List.foldl_cons]
    refine ih (placeGrain w h valid g b) ?_ ?_ hx hy ?_ ?_
    · rw [placeGrain_length, hgl]
    · intro y0 hy0
      rw [placeGrain_rowlen]
      exact hgw y0 hy0
    · unfold placeGrain
      split_ifs with hb
      · exact hcell
      · by_cases hpos : b.y = y ∧ b.x = x
        · rw [cell_setCell,
            if_pos ⟨hpos.1, by omega, hpos.2, by rw [hgw y hy]; omega⟩,
            hsame b (List.mem_cons_self _ _) ⟨hpos.2, hpos.1⟩]
        · rw [cell_setCell_ne _ _ _ _ _ _ (by tauto)]
          exact hcell
    · exact fun gr hgr => hsame gr (List.mem_cons_of_mem _ hgr)

theorem restoreFold_writes (w h : Nat) (valid : List CategoryId) :
    ∀ (grains : List SandStateGrain) (g : Grid) (gr : SandStateGrain),
      g.length = h → (∀ y0, y0 < h → (g.getD y0 []).length = w) →
      gr ∈ grains → gr.x < w → gr.y < h →
      (∀ gr' ∈ grains, gr'.x = gr.x ∧ gr'.y = gr.y → gr'.category_id = gr.category_id) →
      cell (grains.foldl (placeGrain w h valid) g) gr.y gr.x =
        some (normalizeId valid gr.category_id) := by
  intro grains
  induction grains with
  | nil => intro g gr _ _ hmem; exact absurd hmem (List.not_mem_nil _)
  | cons b rest ih =>
    intro g gr hgl hgw hmem hx hy hsame
    rw [List.foldl_cons]
    rcases List.mem_cons.mp hmem with heq | hmem'
    · subst heq
      refine restoreFold_sticky w h valid gr.x gr.y gr.category_id rest _ ?_ ?_ hx hy ?_ ?_
      · rw [placeGrain_length, hgl]
      · intro y0 hy0
        rw [placeGrain_rowlen]
        exact hgw y0 hy0
      · unfold placeGrain
        rw [if_neg (by omega)]
        exact cell_setCell_self g gr.y gr.x _ (by omega) (by rw [hgw gr.y hy]; omega)
      · exact fun gr' hgr' => hsame gr' (List.mem_cons_of_mem _ hgr')
    · refine ih (placeGrain w h valid g b) gr ?_ ?_ hmem' hx hy ?_
      · rw [placeGrain_length, hgl]
      · intro y0 hy0
        rw [placeGrain_rowlen]
        exact hgw y0 hy0
      · exact fun gr' hgr' => hsame gr' (List.mem_cons_of_mem _ hgr')

/-- `restore_state` on a current-version snapshot with nonzero dimensions equal
to the live grid's dimensions takes the no-resize branch. -/
theorem restore_state_same_dims (e : SandEngine) (st : SandState) (valid : List CategoryId)
    (hv : st.version = stateVersion) (hw : 0 < st.grid_width) (hh : 0 < st.grid_height)
    (hdw : gridWidth e.grid = st.grid_width) (hdh : e.grid.length = st.grid_height) :
    e.restore_state st valid =
      { e with
        grid := st.grains.foldl (placeGrain st.grid_width st.grid_height valid)
          (emptyGrid st.grid_width st.grid_height),
        grain_count := countGrains (st.grains.foldl
          (placeGrain st.grid_width st.grid_height valid)
          (emptyGrid st.grid_width st.grid_height)) } := by
  unfold SandEngine.restore_state
  rw [if_neg (by simp [hv]), if_neg (by omega)]
  simp only [hdw, hdh]
  rw [if_neg (by omega)]
  simp

def c8_state : SandState := ⟨1, 3, 3, [⟨2, 2, 99⟩]⟩

def c8_engine : SandEngine := ⟨emptyGrid 3 3, 3, 3, 0, 0⟩

/-- C8: a snapshot grain whose coordinates are in range but whose category id
is absent from `valid_category_ids` is restored as category 0 at its own
coordinates (neither rejected nor kept under the unknown id), and it is
counted by the recomputed `grain_count` (which is a full recount of the
restored grid, hence positive). -/
theorem C8_unknown_category_restores_as_zero (e : SandEngine) (st : SandState)
    (valid : List CategoryId) (gr : SandStateGrain)
    (hv : st.version = stateVersion) (hw : 0 < st.grid_width) (hh : 0 < st.grid_height)
    (hdw : gridWidth e.grid = st.grid_width) (hdh : e.grid.length = st.grid_height)
    (hmem : gr ∈ st.grains) (hx : gr.x < st.grid_width) (hy : gr.y < st.grid_height)
    (hsame : ∀ gr' ∈ st.grains, gr'.x = gr.x ∧ gr'.y = gr.y →
      gr'.category_id = gr.category_id)
    (hbad : gr.category_id ∉ valid) :
    cell (e.restore_state st valid).grid gr.y gr.x = some 0 ∧
    (e.restore_state st valid).grain_count = countGrains (e.restore_state st valid).grid ∧
    0 < (e.restore_state st valid).grain_count := by
  have hcell : cell (e.restore_state st valid).grid gr.y gr.x = some 0 := by
    rw [restore_state_same_dims e st valid hv hw hh hdw hdh]
    have := restoreFold_writes st.grid_width st.grid_height valid st.grains
      (emptyGrid st.grid_width st.grid_height) gr
      (length_emptyGrid ..)
      (fun y0 hy0 => rowlen_emptyGrid st.grid_width st.grid_height y0 hy0)
      hmem hx hy hsame
    rw [this]
    unfold normalizeId
    rw [if_neg hbad]
  refine ⟨hcell, ?_, ?_⟩
  · rw [restore_state_same_dims e st valid hv hw hh hdw hdh]
  · have h2 : (e.restore_state st valid).grain_count =
        countGrains (e.restore_state st valid).grid := by
      rw [restore_state_same_dims e st valid hv hw hh hdw hdh]
    rw [h2]
    exact countGrains_pos_of_cell _ gr.y gr.x 0 hcell

/-- C8 at a concrete input: the one snapshot grain at (2,2) with unknown
category 99, restored against `valid = [0, 1]`, lands at (2,2) as category 0
and is counted. -/
theorem C8_unknown_category_witness :
    cell (c8_engine.restore_state c8_state [0, 1]).grid 2 2 = some 0 ∧
    (c8_engine.restore_state c8_state [0, 1]).grain_count =
      countGrains (c8_engine.restore_state c8_state [0, 1]).grid ∧
    0 < (c8_engine.restore_state c8_state [0, 1]).grain_count :=
  C8_unknown_category_restores_as_zero c8_engine c8_state [0, 1] ⟨2, 2, 99⟩
    (by decide) (by decide) (by decide) (by decide) (by decide) (by decide)
    (by decide) (by decide) (by decide) (by decide)

/-! ## C6: snapshot/restore round trip -/

/-- Every grain id of the grid lies in `valid` (executable form). -/
def gridIdsValid (g : Grid) (valid : List CategoryId) : Bool :=
  g.flatten.all (fun c => match c with | none => true | some i => decide (i ∈ valid))

/-- The snapshot grains contributed by one row, with an explicit column
offset. -/
def rowGrains (y x0 : Nat) (row : List (Option CategoryId)) : List SandStateGrain :=
  (List.enumFrom x0 row).filterMap
    (fun xc => xc.2.map (fun idv => SandStateGrain.mk xc.1 y idv))

/-- The snapshot grains of the rows from row `y0` down. -/
def gridGrains (y0 : Nat) (rows : Grid) : List SandStateGrain :=
  (List.enumFrom y0 rows).flatMap (fun yrow => rowGrains yrow.1 0 yrow.2)

theorem snapshot_grains_eq (e : SandEngine) :
    (SandEngine.snapshot_state e).grains = gridGrains 0 e.grid := rfl

theorem gridIdsValid_spec (g : Grid) (valid : List CategoryId)
    (h : gridIdsValid g valid = true) :
    ∀ r ∈ g, ∀ idv, (some idv) ∈ r → idv ∈ valid := by
  intro r hr idv hidv
  have := List.all_eq_true.mp h (some idv) (List.mem_flatten.mpr ⟨r, hr, hidv⟩)
  simpa using this

theorem set_getD_self (g : Grid) (y : Nat) (hy : y < g.length) :
    g.set y (g.getD y []) = g := by
  apply List.ext_getElem?
  intro n
  rw [List.getElem?_set]
  by_cases h : y = n
  · subst h
    rw [if_pos rfl, if_pos hy, List.getD_eq_getElem?_getD, List.getElem?_eq_getElem hy,
      Option.getD_some]
  · rw [if_neg h]

theorem take_set_self {α : Type} (l : List α) (n : Nat) (a : α) :
    (l.set n a).take n = l.take n := by
  apply List.ext_getElem?
  intro m
  rw [List.getElem?_take, List.getElem?_take]
  by_cases h : m < n
  · rw [if_pos h, if_pos h, List.getElem?_set_ne (by omega)]
  · rw [if_neg h, if_neg h]

theorem rowFold (w h : Nat) (valid : List CategoryId) (y : Nat) :
    ∀ (row : List (Option CategoryId)) (x0 : Nat) (g : Grid),
      g.length = h → y < h →
      x0 + row.length ≤ w →
      (g.getD y []).length = w →
      (g.getD y []).drop x0 = List.replicate row.length none →
      (∀ idv, (some idv) ∈ row → idv ∈ valid) →
      (rowGrains y x0 row).foldl (placeGrain w h valid) g =
        g.set y ((g.getD y []).take x0 ++ row) := by
  intro row
  induction row with
  | nil =>
    intro x0 g hgl hy _ _ hdrop _
    have hx0 : (g.getD y []).length ≤ x0 :=
      List.drop_eq_nil_iff.mp (by simpa using hdrop)
    show g = g.set y ((g.getD y []).take x0 ++ [])
    rw [List.append_nil, List.take_of_length_le hx0, set_getD_self g y (by omega)]
  | cons c row' ih =>
    intro x0 g hgl hy hxw hrowlen hdrop hval
    have hlt : x0 < (g.getD y []).length := by
      rw [hrowlen]
      simp only [List.length_cons] at hxw
      omega
    have hx0cell : (g.getD y [])[x0]? = some none := by
      have h0 : (List.drop x0 (g.getD y []))[0]? = some none := by
        rw [hdrop]
        simp
      rw [List.getElem?_drop] at h0
      simpa using h0
    have hdrop1 : (g.getD y []).drop (x0 + 1) = List.replicate row'.length none := by
      have := congrArg (List.drop 1) hdrop
      rw [List.drop_drop] at this
      simpa using this
    cases c with
    | none =>
      have hrg : rowGrains y x0 (none :: row') = rowGrains y (x0 + 1) row' := by
        simp [rowGrains, List.enumFrom_cons, List.filterMap_cons]
      rw [hrg, ih (x0 + 1) g hgl hy (by simp only [List.length_cons] at hxw; omega)
        hrowlen hdrop1 (fun idv hi => hval idv (List.mem_cons_of_mem _ hi))]
      congr 1
      rw [List.take_succ, hx0cell]
      simp
    | some idv =>
      have hrg : rowGrains y x0 (some idv :: row') =
          SandStateGrain.mk x0 y idv :: rowGrains y (x0 + 1) row' := by
        simp [rowGrains, List.enumFrom_cons, List.filterMap_cons]
      rw [hrg, List.foldl_cons]
      have hplace : placeGrain w h valid g ⟨x0, y, idv⟩ = setCell g y x0 (some idv) := by
        unfold placeGrain normalizeId
        rw [if_neg (by simp only [not_or]; omega),
          if_pos (hval idv (List.mem_cons_self _ _))]
      rw [hplace]
      have hg'row : (setCell g y x0 (some idv)).getD y [] =
          (g.getD y []).set x0 (some idv) := by
        unfold setCell
        rw [getD_set_rows, if_pos ⟨rfl, by omega⟩]
      have hih := ih (x0 + 1) (setCell g y x0 (some idv))
        (by rw [length_setCell]; exact hgl) hy
        (by simp only [List.length_cons] at hxw; omega)
        (by rw [rowlen_setCell]; exact hrowlen)
        (by rw [hg'row, List.drop_set, if_pos (by omega)]; exact hdrop1)
        (fun idv' hi => hval idv' (List.mem_cons_of_mem _ hi))
      rw [hih, hg'row]
      unfold setCell
      rw [List.set_set]
      congr 1
      rw [List.take_succ, take_set_self, List.getElem?_set_self hlt]
      simp

theorem gridFold (w h : Nat) (valid : List CategoryId) :
    ∀ (rows : Grid) (y0 : Nat) (g : Grid),
      g.length = h →
      y0 + rows.length ≤ h →
      (∀ r ∈ rows, r.length = w) →
      g.drop y0 = rows.map (fun r => List.replicate r.length (none : Option CategoryId)) →
      (∀ r ∈ rows, ∀ idv, (some idv) ∈ r → idv ∈ valid) →
      (gridGrains y0 rows).foldl (placeGrain w h valid) g = g.take y0 ++ rows := by
  intro rows
  induction rows with
  | nil =>
    intro y0 g _ _ _ hdrop _
    show g = g.take y0 ++ []
    rw [List.append_nil,
      List.take_of_length_le (List.drop_eq_nil_iff.mp (by simpa using hdrop))]
  | cons r rows' ih =>
    intro y0 g hgl hyh hrect hdrop hval
    have hgg : gridGrains y0 (r :: rows') = rowGrains y0 0 r ++ gridGrains (y0 + 1) rows' := by
      simp [gridGrains, List.enumFrom_cons, List.flatMap_cons]
    rw [hgg, List.foldl_append]
    have hy0 : y0 < h := by
      simp only [List.length_cons] at hyh
      omega
    have hrowy0 : g.getD y0 [] = List.replicate r.length none := by
      have h0 : (List.drop y0 g)[0]? = some (List.replicate r.length none) := by
        rw [hdrop]
        simp
      rw [List.getElem?_drop] at h0
      rw [List.getD_eq_getElem?_getD]
      simp only [Nat.add_zero] at h0
      rw [h0]
      rfl
    have hdrop1 : List.drop (y0 + 1) g =
        rows'.map (fun r => List.replicate r.length (none : Option CategoryId)) := by
      have := congrArg (List.drop 1) hdrop
      rw [List.drop_drop] at this
      simpa using this
    rw [rowFold w h valid y0 r 0 g hgl hy0
      (by simp [hrect r (List.mem_cons_self _ _)])
      (by rw [hrowy0, List.length_replicate]; exact hrect r (List.mem_cons_self _ _))
      (by rw [hrowy0]; simp)
      (fun idv hi => hval r (List.mem_cons_self _ _) idv hi)]
    rw [List.take_zero, List.nil_append]
    rw [ih (y0 + 1) (g.set y0 r) (by rw [List.length_set]; exact hgl)
      (by simp only [List.length_cons] at hyh; omega)
      (fun r' hr' => hrect r' (List.mem_cons_of_mem _ hr'))
      (by rw [List.drop_set, if_pos (by omega)]; exact hdrop1)
      (fun r' hr' idv hi => hval r' (List.mem_cons_of_mem _ hr') idv hi)]
    rw [List.take_succ, take_set_self, List.getElem?_set_self (by omega : y0 < g.length)]
    simp

theorem map_replicate_of_rect (g : Grid) (w : Nat) (hrect : Rect g w) :
    g.map (fun r => List.replicate r.length (none : Option CategoryId)) =
      List.replicate g.length (List.replicate w none) := by
  induction g with
  | nil => rfl
  | cons r g' ih =>
    simp only [List.map_cons, List.length_cons, List.replicate_succ]
    rw [hrect r (List.mem_cons_self _ _), ih (fun r' hr' => hrect r' (List.mem_cons_of_mem _ hr'))]

theorem gridWidth_of_rect (g : Grid) (w : Nat) (hrect : Rect g w) (hne : 0 < g.length) :
    gridWidth g = w := by
  cases g with
  | nil => simp at hne
  | cons r g' =>
    show ((some r).map List.length).getD 0 = w
    simpa using hrect r (List.mem_cons_self _ _)

/-- C6: for an engine all of whose grains carry ids in `valid_category_ids`,
restoring its snapshot into an engine whose current grid has the same
dimensions reproduces exactly the same grid (same occupied cells with the
same category ids) and the same `grain_count`. -/
theorem C6_snapshot_restore_round_trip (e1 e2 : SandEngine) (valid : List CategoryId)
    (w h : Nat) (hw : 0 < w) (hh : 0 < h)
    (hrect1 : Rect e1.grid w) (hlen1 : e1.grid.length = h)
    (hdw2 : gridWidth e2.grid = w) (hlen2 : e2.grid.length = h)
    (hvalid : gridIdsValid e1.grid valid = true)
    (hcount : e1.grain_count = countGrains e1.grid) :
    (e2.restore_state e1.snapshot_state valid).grid = e1.grid ∧
    (e2.restore_state e1.snapshot_state valid).grain_count = e1.grain_count := by
  have hst : e1.snapshot_state.grid_width = w :=
    gridWidth_of_rect e1.grid w hrect1 (by omega)
  have hsh : e1.snapshot_state.grid_height = h := hlen1
  have hred := restore_state_same_dims e2 e1.snapshot_state valid rfl
    (by rw [hst]; exact hw) (by rw [hsh]; exact hh)
    (hdw2.trans hst.symm) (hlen2.trans hsh.symm)
  have hfold : e1.snapshot_state.grains.foldl
      (placeGrain e1.snapshot_state.grid_width e1.snapshot_state.grid_height valid)
      (emptyGrid e1.snapshot_state.grid_width e1.snapshot_state.grid_height) = e1.grid := by
    rw [snapshot_grains_eq, hst, hsh]
    have := gridFold w h valid e1.grid 0 (emptyGrid w h) (length_emptyGrid ..)
      (by rw [hlen1]; omega)
      (fun r hr => hrect1 r hr)
      (by rw [List.drop_zero]
          unfold emptyGrid
          rw [map_replicate_of_rect e1.grid w hrect1, hlen1])
      (gridIdsValid_spec e1.grid valid hvalid)
    rw [this]
    simp
  have hgrid : (e2.restore_state e1.snapshot_state valid).grid = e1.grid := by
    rw [hred]
    exact hfold
  refine ⟨hgrid, ?_⟩
  have hgc : (e2.restore_state e1.snapshot_state valid).grain_count =
      countGrains (e2.restore_state e1.snapshot_state valid).grid := by
    rw [hred]
  rw [hgc, hgrid, hcount]

def c6_grid : Grid := setCell (setCell (emptyGrid 8 12) 3 2 (some 1)) 10 7 (some 2)

def c6_engine : SandEngine := ⟨c6_grid, 8, 12, 0, 2⟩

def c6_target : SandEngine := ⟨emptyGrid 8 12, 8, 12, 0, 0⟩

/-- C6 at a concrete input: an engine with grains only at (3,2) and (10,7)
round-trips through snapshot/restore into a fresh engine of the same
dimensions, reproducing exactly its grid and `grain_count = 2`. -/
theorem C6_snapshot_restore_round_trip_witness :
    (c6_target.restore_state c6_engine.snapshot_state [0, 1, 2]).grid = c6_engine.grid ∧
    (c6_target.restore_state c6_engine.snapshot_state [0, 1, 2]).grain_count =
      c6_engine.grain_count :=
  C6_snapshot_restore_round_trip c6_engine c6_target [0, 1, 2] 8 12
    (by decide) (by decide) (by decide) (by decide) (by decide) (by decide)
    (by decide) (by decide)

/-! ## C7: resize never retags — counting infrastructure -/

theorem countP_or_disjoint {α : Type} (p q : α → Bool) :
    ∀ (l : List α), (∀ a ∈ l, ¬(p a = true ∧ q a = true)) →
      l.countP (fun a => p a || q a) = l.countP p + l.countP q := by
  intro l
  induction l with
  | nil => intro _; rfl
  | cons a l ih =>
    intro hdis
    rw [List.countP_cons, List.countP_cons, List.countP_cons,
      ih (fun a' ha' => hdis a' (List.mem_cons_of_mem _ ha'))]
    have := hdis a (List.mem_cons_self _ _)
    cases hp : p a <;> cases hq : q a <;> simp_all <;> omega

theorem countP_filterMap {α β : Type} (f : α → Option β) (p : β → Bool) :
    ∀ (l : List α),
      (l.filterMap f).countP p = l.countP (fun a => ((f a).map p).getD false) := by
  intro l
  induction l with
  | nil => rfl
  | cons a l ih =>
    rw [List.filterMap_cons, List.countP_cons]
    cases hf : f a with
    | none => simp [hf, ih]
    | some b => simp [List.countP_cons, ih, hf]

theorem countP_grid_pairs (outer inner : List Nat) (p : Nat × Nat → Bool) :
    (outer.flatMap (fun y => inner.map (fun x => (y, x)))).countP p =
      (outer.map (fun y => inner.countP (fun x => p (y, x)))).sum := by
  induction outer with
  | nil => rfl
  | cons y ys ih =>
    rw [List.flatMap_cons, List.countP_append, ih, List.map_cons, List.sum_cons,
      List.countP_map]
    rfl

theorem sum_range'_le_sum_range (f g : Nat → Nat) :
    ∀ (m s n : Nat),
      (∀ i, s ≤ i → i < s + m → i < n → f i ≤ g i) →
      (∀ i, n ≤ i → f i = 0) →
      ((List.range' s m).map f).sum ≤ ((List.range n).map g).sum := by
  intro m s n hfg hf0
  by_cases hsn : s ≤ n
  · have hm1 : min m (n - s) ≤ m := Nat.min_le_left _ _
    have hsplit : List.range' s m =
        List.range' s (min m (n - s)) ++ List.range' (s + min m (n - s)) (m - min m (n - s)) := by
      have hr := List.range'_append s (min m (n - s)) (m - min m (n - s)) 1
      simp only [one_mul] at hr
      rw [show m - m ⊓ (n - s) + m ⊓ (n - s) = m from by omega] at hr
      exact hr.symm
    have hzero : ((List.range' (s + min m (n - s)) (m - min m (n - s))).map f).sum = 0 := by
      apply List.sum_eq_zero
      intro v hv
      rw [List.mem_map] at hv
      obtain ⟨i, hi, hv⟩ := hv
      rw [List.mem_range'] at hi
      obtain ⟨j, hj, hij⟩ := hi
      rw [← hv]
      apply hf0
      omega
    have hle : ((List.range' s (min m (n - s))).map f).sum ≤
        ((List.range' s (min m (n - s))).map g).sum := by
      apply List.sum_le_sum
      intro i hi
      rw [List.mem_range'] at hi
      obtain ⟨j, hj, hij⟩ := hi
      exact hfg i (by omega) (by omega) (by omega)
    have hsub : ((List.range' s (min m (n - s))).map g).sum ≤
        ((List.range n).map g).sum := by
      have hn : List.range n = (List.range' 0 s ++ List.range' s (min m (n - s))) ++
          List.range' (s + min m (n - s)) (n - s - min m (n - s)) := by
        rw [List.range_eq_range']
        have h1 := List.range'_append 0 s (min m (n - s)) 1
        simp only [one_mul, Nat.zero_add] at h1
        rw [show m ⊓ (n - s) + s = s + m ⊓ (n - s) from by omega] at h1
        have h2 := List.range'_append 0 (s + min m (n - s)) (n - s - min m (n - s)) 1
        simp only [one_mul, Nat.zero_add] at h2
        rw [show n - s - m ⊓ (n - s) + (s + m ⊓ (n - s)) = n from by omega] at h2
        rw [h1, h2]
      rw [hn, List.map_append, List.map_append, List.sum_append, List.sum_append]
      omega
    calc ((List.range' s m).map f).sum
        = ((List.range' s (min m (n - s))).map f).sum := by
          rw [hsplit, List.map_append, List.sum_append, hzero]
          omega
      _ ≤ ((List.range' s (min m (n - s))).map g).sum := hle
      _ ≤ ((List.range n).map g).sum := hsub
  · have : ((List.range' s m).map f).sum = 0 := by
      apply List.sum_eq_zero
      intro v hv
      rw [List.mem_map] at hv
      obtain ⟨i, hi, hv⟩ := hv
      rw [List.mem_range'] at hi
      obtain ⟨j, hj, hij⟩ := hi
      rw [← hv]
      apply hf0
      omega
    omega

theorem countP_range_getD (k : CategoryId) :
    ∀ (r : List (Option CategoryId)),
      (List.range r.length).countP (fun x => r.getD x none = some k) =
        r.countP (fun c => c = some k) := by
  intro r
  induction r with
  | nil => rfl
  | cons a r' ih =>
    rw [List.length_cons, List.range_succ_eq_map, List.countP_cons, List.countP_map]
    have : List.countP ((fun x => decide ((a :: r').getD x none = some k)) ∘ Nat.succ)
        (List.range r'.length) =
        List.countP (fun x => decide (r'.getD x none = some k)) (List.range r'.length) := by
      apply List.countP_congr
      intro x _
      rfl
    rw [this, ih, List.countP_cons]
    have ha : (a :: r').getD 0 none = a := rfl
    rw [ha]

theorem sum_map_range_getD {α : Type} (F : α → Nat) (d : α) :
    ∀ (L : List α),
      ((List.range L.length).map (fun y => F (L.getD y d))).sum = (L.map F).sum := by
  intro L
  induction L with
  | nil => rfl
  | cons a L' ih =>
    rw [List.length_cons, List.range_succ_eq_map, List.map_cons, List.sum_cons,
      List.map_map, List.map_cons, List.sum_cons]
    have : List.map ((fun y => F ((a :: L').getD y d)) ∘ Nat.succ) (List.range L'.length) =
        List.map (fun y => F (L'.getD y d)) (List.range L'.length) := by
      apply List.map_congr_left
      intro y _
      rfl
    rw [this, ih]
    rfl

theorem countP_set_le (k : CategoryId) (v : Option CategoryId) :
    ∀ (r : List (Option CategoryId)) (x : Nat),
      (r.set x v).countP (fun c => c = some k) ≤
        r.countP (fun c => c = some k) + (if v = some k then 1 else 0) := by
  intro r
  induction r with
  | nil => intro x; simp [List.countP_nil]
  | cons a r' ih =>
    intro x
    cases x with
    | zero =>
      rw [List.set_cons_zero, List.countP_cons, List.countP_cons]
      split_ifs <;> simp_all
    | succ x' =>
      rw [List.set_cons_succ, List.countP_cons, List.countP_cons]
      have := ih x'
      omega

theorem countCat_cons (k : CategoryId) (r : List (Option CategoryId)) (g : Grid) :
    countCat k (r :: g) = r.countP (fun c => c = some k) + countCat k g := by
  unfold countCat
  rw [List.flatten_cons, List.countP_append]

theorem countCat_setCell_le (k : CategoryId) (v : Option CategoryId) :
    ∀ (g : Grid) (y x : Nat),
      countCat k (setCell g y x v) ≤ countCat k g + (if v = some k then 1 else 0) := by
  intro g
  induction g with
  | nil => intro y x; unfold setCell; simp [countCat]
  | cons r g' ih =>
    intro y x
    cases y with
    | zero =>
      show countCat k ((r :: g').set 0 (((r :: g').getD 0 []).set x v)) ≤ _
      rw [List.set_cons_zero, countCat_cons, countCat_cons]
      have hgd : (r :: g').getD 0 [] = r := rfl
      rw [hgd]
      have := countP_set_le k v r x
      omega
    | succ y' =>
      show countCat k ((r :: g').set (y' + 1) (((r :: g').getD (y' + 1) []).set x v)) ≤ _
      rw [List.set_cons_succ, countCat_cons, countCat_cons]
      have hgd : (r :: g').getD (y' + 1) [] = g'.getD y' [] := rfl
      rw [hgd]
      have := ih y' x
      unfold setCell at this
      omega

theorem countCat_emptyGrid (k : CategoryId) (w : Nat) :
    ∀ (h : Nat), countCat k (emptyGrid w h) = 0 := by
  intro h
  induction h with
  | zero => rfl
  | succ h' ih =>
    show countCat k (List.replicate (h' + 1) (List.replicate w none)) = 0
    rw [List.replicate_succ, countCat_cons]
    have h1 : (List.replicate w (none : Option CategoryId)).countP (fun c => c = some k) = 0 := by
      rw [List.countP_eq_zero]
      intro c hc
      rw [List.eq_of_mem_replicate hc]
      simp
    rw [h1]
    show 0 + countCat k (emptyGrid w h') = 0
    rw [ih]

theorem countP_eq_sum_map {α : Type} (p : α → Bool) :
    ∀ (l : List α), l.countP p = (l.map (fun a => if p a then 1 else 0)).sum := by
  intro l
  induction l with
  | nil => rfl
  | cons a l ih =>
    rw [List.countP_cons, List.map_cons, List.sum_cons, ih]
    omega

theorem copyFold_le (k : CategoryId) (old : Grid) (fy fx : Nat × Nat → Nat) :
    ∀ (cells : List (Nat × Nat)) (g0 : Grid),
      countCat k (cells.foldl
        (fun g yx => setCell g (fy yx) (fx yx) (cell old yx.1 yx.2)) g0) ≤
      countCat k g0 + cells.countP (fun yx => cell old yx.1 yx.2 = some k) := by
  intro cells
  induction cells with
  | nil => intro g0; simp
  | cons c rest ih =>
    intro g0
    rw [List.foldl_cons, List.countP_cons]
    have h1 := ih (setCell g0 (fy c) (fx c) (cell old c.1 c.2))
    have h2 := countCat_setCell_le k (cell old c.1 c.2) g0 (fy c) (fx c)
    by_cases hc : cell old c.1 c.2 = some k
    · rw [if_pos hc] at h2
      have e3 : (decide (cell old c.1 c.2 = some k)) = true := by simp [hc]
      simp only [e3, if_true]
      omega
    · rw [if_neg hc] at h2
      have e3 : (decide (cell old c.1 c.2 = some k)) = false := by simp [hc]
      simp only [e3, Bool.false_eq_true, if_false]
      omega

theorem fillCells_le (k : CategoryId) :
    ∀ (cells : List (Nat × Nat)) (g : Grid) (grains : List CategoryId),
      countCat k (fillCells g cells grains) ≤
        countCat k g + countCatL k (grains.take cells.length) := by
  intro cells
  induction cells with
  | nil => intro g grains; simp [fillCells, countCatL]
  | cons c rest ih =>
    intro g grains
    obtain ⟨y, x⟩ := c
    rw [List.length_cons]
    by_cases hc : cell g y x = none
    · cases grains with
      | nil =>
        have hstep : fillCells g ((y, x) :: rest) [] = g := by
          unfold fillCells
          rw [if_pos hc]
        rw [hstep]
        simp [countCatL]
      | cons c0 gs =>
        have hstep : fillCells g ((y, x) :: rest) (c0 :: gs) =
            fillCells (setCell g y x (some c0)) rest gs := by
          conv_lhs => rw [fillCells]
          rw [if_pos hc]
        rw [hstep]
        have h1 := ih (setCell g y x (some c0)) gs
        have h2 := countCat_setCell_le k (some c0) g y x
        have h3 : countCatL k ((c0 :: gs).take (rest.length + 1)) =
            countCatL k (gs.take rest.length) + (if c0 = k then 1 else 0) := by
          rw [List.take_succ_cons]
          unfold countCatL
          rw [List.countP_cons]
          by_cases h : c0 = k <;> simp [h]
        by_cases h : c0 = k
        · rw [if_pos h] at h3
          have e2 : (if (some c0 : Option CategoryId) = some k then 1 else 0) = 1 := by simp [h]
          rw [e2] at h2
          omega
        · rw [if_neg h] at h3
          have e2 : (if (some c0 : Option CategoryId) = some k then 1 else 0) = 0 := by simp [h]
          rw [e2] at h2
          omega
    · have hstep : fillCells g ((y, x) :: rest) grains = fillCells g rest grains := by
        show (if cell g y x = none then
            match grains with
            | [] => g
            | c :: gs => fillCells (setCell g y x (some c)) rest gs
          else fillCells g rest grains) = fillCells g rest grains
        rw [if_neg hc]
      rw [hstep]
      have h1 := ih g grains
      have hmono : countCatL k (grains.take rest.length) ≤
          countCatL k (grains.take (rest.length + 1)) := by
        unfold countCatL
        have heq : grains.take rest.length = (grains.take (rest.length + 1)).take rest.length := by
          rw [List.take_take]
          congr 1
          omega
        rw [heq]
        exact (List.take_sublist _ _).countP_le _
      omega

theorem place_overflow_le (k : CategoryId) :
    ∀ (grains : List CategoryId) (g : Grid),
      countCat k (place_overflow g grains) ≤ countCat k g + countCatL k grains := by
  intro grains
  induction grains with
  | nil => intro g; simp [place_overflow, countCatL]
  | cons c gs ih =>
    intro g
    unfold place_overflow at ih ⊢
    rw [List.foldl_cons]
    have hstep : countCat k
        (match (overflowCells g.length (gridWidth g)).find?
            (fun yx => cell g yx.1 yx.2 = none) with
          | some (y, x) => setCell g y x (some c)
          | none => g) ≤ countCat k g + (if c = k then 1 else 0) := by
      cases hf : (overflowCells g.length (gridWidth g)).find?
          (fun yx => cell g yx.1 yx.2 = none) with
      | none => simp
      | some yx =>
        obtain ⟨y, x⟩ := yx
        show countCat k (setCell g y x (some c)) ≤ _
        have hle := countCat_setCell_le k (some c) g y x
        by_cases h : c = k
        · rw [if_pos h]
          have e2 : (if (some c : Option CategoryId) = some k then 1 else 0) = 1 := by simp [h]
          rw [e2] at hle
          exact hle
        · rw [if_neg h]
          have e2 : (if (some c : Option CategoryId) = some k then 1 else 0) = 0 := by simp [h]
          rw [e2] at hle
          exact hle
    have h1 := ih (match (overflowCells g.length (gridWidth g)).find?
        (fun yx => cell g yx.1 yx.2 = none) with
      | some (y, x) => setCell g y x (some c)
      | none => g)
    have h3 : countCatL k (c :: gs) = countCatL k gs + (if c = k then 1 else 0) := by
      unfold countCatL
      rw [List.countP_cons]
      by_cases h : c = k <;> simp [h]
    omega

/-! Shape preservation through the resize pipeline. -/

theorem gridWidth_setCell (g : Grid) (y x : Nat) (v : Option CategoryId) :
    gridWidth (setCell g y x v) = gridWidth g := by
  cases g with
  | nil => rfl
  | cons r t =>
    cases y with
    | zero =>
      show gridWidth ((r :: t).set 0 (((r :: t).getD 0 []).set x v)) = _
      rw [List.set_cons_zero]
      show ((r.set x v).length : Nat) = r.length
      exact List.length_set ..
    | succ y' =>
      show gridWidth ((r :: t).set (y' + 1) (((r :: t).getD (y' + 1) []).set x v)) = _
      rw [List.set_cons_succ]
      rfl

theorem shape_fillCells :
    ∀ (cells : List (Nat × Nat)) (g : Grid) (grains : List CategoryId),
      (fillCells g cells grains).length = g.length ∧
      gridWidth (fillCells g cells grains) = gridWidth g := by
  intro cells
  induction cells with
  | nil => intro g grains; exact ⟨rfl, rfl⟩
  | cons c rest ih =>
    intro g grains
    obtain ⟨y, x⟩ := c
    show (fillCells g ((y, x) :: rest) grains).length = _ ∧
      gridWidth (fillCells g ((y, x) :: rest) grains) = _
    unfold fillCells
    by_cases hc : cell g y x = none
    · rw [if_pos hc]
      cases grains with
      | nil => exact ⟨rfl, rfl⟩
      | cons c0 gs =>
        have := ih (setCell g y x (some c0)) gs
        rw [length_setCell, gridWidth_setCell] at this
        exact this
    · rw [if_neg hc]
      exact ih g grains

theorem shape_place_overflow :
    ∀ (grains : List CategoryId) (g : Grid),
      (place_overflow g grains).length = g.length ∧
      gridWidth (place_overflow g grains) = gridWidth g := by
  intro grains
  induction grains with
  | nil => intro g; exact ⟨rfl, rfl⟩
  | cons c gs ih =>
    intro g
    unfold place_overflow at ih ⊢
    rw [List.foldl_cons]
    have hstep : ∀ (g' : Grid), g' = (match (overflowCells g.length (gridWidth g)).find?
        (fun yx => cell g yx.1 yx.2 = none) with
      | some (y, x) => setCell g y x (some c)
      | none => g) → g'.length = g.length ∧ gridWidth g' = gridWidth g := by
      intro g' hg'
      cases hf : (overflowCells g.length (gridWidth g)).find?
          (fun yx => cell g yx.1 yx.2 = none) with
      | none => rw [hg', hf]; exact ⟨rfl, rfl⟩
      | some yx =>
        obtain ⟨y, x⟩ := yx
        rw [hg', hf]
        exact ⟨length_setCell .., gridWidth_setCell ..⟩
    have h1 := hstep _ rfl
    have h2 := ih (match (overflowCells g.length (gridWidth g)).find?
        (fun yx => cell g yx.1 yx.2 = none) with
      | some (y, x) => setCell g y x (some c)
      | none => g)
    rw [h1.1, h1.2] at h2
    exact h2

theorem shape_copyFold (old : Grid) (fy fx : Nat × Nat → Nat) :
    ∀ (cells : List (Nat × Nat)) (g0 : Grid),
      ((cells.foldl (fun g yx => setCell g (fy yx) (fx yx) (cell old yx.1 yx.2)) g0).length
        = g0.length) ∧
      gridWidth (cells.foldl (fun g yx => setCell g (fy yx) (fx yx) (cell old yx.1 yx.2)) g0)
        = gridWidth g0 := by
  intro cells
  induction cells with
  | nil => intro g0; exact ⟨rfl, rfl⟩
  | cons c rest ih =>
    intro g0
    rw [List.foldl_cons]
    have := ih (setCell g0 (fy c) (fx c) (cell old c.1 c.2))
    rw [length_setCell, gridWidth_setCell] at this
    exact this

theorem gridWidth_emptyGrid_le (w h : Nat) : gridWidth (emptyGrid w h) ≤ w := by
  cases h with
  | zero => exact Nat.zero_le w
  | succ h' =>
    show gridWidth (List.replicate (h' + 1) (List.replicate w none)) ≤ w
    rw [List.replicate_succ]
    show ((List.replicate w (none : Option CategoryId)).length : Nat) ≤ w
    rw [List.length_replicate]

theorem getD_mem_of_lt (g : Grid) (y : Nat) (hy : y < g.length) : g.getD y [] ∈ g := by
  rw [List.getD_eq_getElem?_getD, List.getElem?_eq_getElem hy, Option.getD_some]
  exact List.getElem_mem hy

theorem countCatL_filterMap_cond (k : CategoryId) (old : Grid) (cells : List (Nat × Nat))
    (cond : Nat × Nat → Prop) [DecidablePred cond] :
    countCatL k (cells.filterMap (fun yx => if cond yx then cell old yx.1 yx.2 else none)) =
      cells.countP (fun yx => cond yx ∧ cell old yx.1 yx.2 = some k) := by
  unfold countCatL
  rw [countP_filterMap]
  apply List.countP_congr
  intro yx _
  by_cases h : cond yx
  · cases hc : cell old yx.1 yx.2 <;> simp [h, hc]
  · simp [h]

theorem countCat_eq_rowMajor (k : CategoryId) (old : Grid)
    (hrect : Rect old (gridWidth old)) :
    (rowMajor old.length (gridWidth old)).countP
        (fun yx => cell old yx.1 yx.2 = some k) = countCat k old := by
  unfold rowMajor
  rw [countP_grid_pairs]
  have hmap : (List.range old.length).map
      (fun y => (List.range (gridWidth old)).countP (fun x => cell old y x = some k)) =
      (List.range old.length).map
        (fun y => (old.getD y []).countP (fun c => c = some k)) := by
    apply List.map_congr_left
    intro y hy
    rw [List.mem_range] at hy
    have hrow : (old.getD y []).length = gridWidth old :=
      hrect _ (getD_mem_of_lt old y hy)
    rw [← hrow, ← countP_range_getD k (old.getD y [])]
    rfl
  rw [hmap, sum_map_range_getD (fun r => r.countP (fun c => c = some k)) [] old]
  unfold countCat
  rw [List.countP_flatten]

theorem copy_window_le (k : CategoryId) (old : Grid) (xs xe ys ye : Nat)
    (hrect : Rect old (gridWidth old)) :
    (copyCells xs xe ys ye).countP (fun yx => cell old yx.1 yx.2 = some k) ≤
      (rowMajor old.length (gridWidth old)).countP
        (fun yx => (xs ≤ yx.2 ∧ yx.2 < xe ∧ ys ≤ yx.1 ∧ yx.1 < ye) ∧
          cell old yx.1 yx.2 = some k) := by
  unfold copyCells rowMajor
  rw [countP_grid_pairs, countP_grid_pairs]
  apply sum_range'_le_sum_range
  · intro y hy1 hy2 hy3
    rw [countP_eq_sum_map, countP_eq_sum_map]
    apply sum_range'_le_sum_range
    · intro x hx1 hx2 hx3
      have hins : xs ≤ x ∧ x < xe ∧ ys ≤ y ∧ y < ye := by omega
      by_cases hcell : cell old y x = some k
      · simp [hcell, hins]
      · simp [hcell]
    · intro x hx
      have hcell : cell old y x = none := by
        unfold cell
        apply List.getD_eq_default
        rw [hrect _ (getD_mem_of_lt old y hy3)]
        exact hx
      simp [hcell]
  · intro y hy
    rw [List.countP_eq_zero]
    intro x _
    have hcell : cell old y x = none := by
      unfold cell
      rw [List.getD_eq_default _ _ hy]
      rfl
    simp [hcell]

theorem length_leftBandCells (h bw : Nat) : (leftBandCells h bw).length = h * bw := by
  unfold leftBandCells
  rw [List.length_flatMap]
  have h1 : (List.length ∘ fun (y : Nat) => (List.range bw).map (fun x => (y, x))) =
      fun (_ : Nat) => bw := by
    funext y
    simp [Function.comp]
  rw [h1, List.map_const', List.length_reverse, List.length_range, List.sum_replicate,
    smul_eq_mul]

theorem length_rightBandCells (h w bw : Nat) :
    (rightBandCells h w bw).length = h * (w - (w - bw)) := by
  unfold rightBandCells
  rw [List.length_flatMap]
  have h1 : (List.length ∘ fun (y : Nat) =>
      ((List.range' (w - bw) (w - (w - bw))).reverse).map (fun x => (y, x))) =
      fun (_ : Nat) => w - (w - bw) := by
    funext y
    simp [Function.comp]
  rw [h1, List.map_const', List.length_reverse, List.length_range, List.sum_replicate,
    smul_eq_mul]

theorem length_topBandCells (bh w : Nat) : (topBandCells bh w).length = bh * w := by
  unfold topBandCells
  rw [List.length_flatMap]
  have h1 : (List.length ∘ fun (y : Nat) => (List.range w).map (fun x => (y, x))) =
      fun (_ : Nat) => w := by
    funext y
    simp [Function.comp]
  rw [h1, List.map_const', List.length_reverse, List.length_range, List.sum_replicate,
    smul_eq_mul]

theorem length_bottomBandCells (h w bh : Nat) :
    (bottomBandCells h w bh).length = (h - (h - bh)) * w := by
  unfold bottomBandCells
  rw [List.length_flatMap]
  have h1 : (List.length ∘ fun (y : Nat) => (List.range w).map (fun x => (y, x))) =
      fun (_ : Nat) => w := by
    funext y
    simp [Function.comp]
  rw [h1, List.map_const', List.length_range', List.sum_replicate, smul_eq_mul]

theorem kept_window_le (o n : Nat) : (kept_window o n).1 ≤ (kept_window o n).2.1 := by
  unfold kept_window
  split_ifs <;> simp

theorem countCatL_take_mono (k : CategoryId) (B : List CategoryId) (n m : Nat) (hnm : n ≤ m) :
    countCatL k (B.take n) ≤ countCatL k (B.take m) := by
  unfold countCatL
  have heq : B.take n = (B.take m).take n := by
    rw [List.take_take]
    congr 1
    omega
  rw [heq]
  exact (List.take_sublist _ _).countP_le _

theorem countCatL_take_drop (k : CategoryId) (B : List CategoryId) (n : Nat) :
    countCatL k (B.take n) + countCatL k (B.drop n) = countCatL k B := by
  unfold countCatL
  rw [← List.countP_append, List.take_append_drop]

theorem countCatL_append (k : CategoryId) (a b : List CategoryId) :
    countCatL k (a ++ b) = countCatL k a + countCatL k b := by
  unfold countCatL
  exact List.countP_append ..

theorem countP_five_disjoint_le {α : Type} (p1 p2 p3 p4 p5 q : α → Bool) :
    ∀ (l : List α),
      (∀ a ∈ l, (p1 a = true → q a = true) ∧ (p2 a = true → q a = true) ∧
        (p3 a = true → q a = true) ∧ (p4 a = true → q a = true) ∧
        (p5 a = true → q a = true)) →
      (∀ a ∈ l, ¬(p1 a = true ∧ p2 a = true) ∧ ¬(p1 a = true ∧ p3 a = true) ∧
        ¬(p1 a = true ∧ p4 a = true) ∧ ¬(p1 a = true ∧ p5 a = true) ∧
        ¬(p2 a = true ∧ p3 a = true) ∧ ¬(p2 a = true ∧ p4 a = true) ∧
        ¬(p2 a = true ∧ p5 a = true) ∧ ¬(p3 a = true ∧ p4 a = true) ∧
        ¬(p3 a = true ∧ p5 a = true) ∧ ¬(p4 a = true ∧ p5 a = true)) →
      l.countP p1 + l.countP p2 + l.countP p3 + l.countP p4 + l.countP p5 ≤ l.countP q := by
  intro l
  induction l with
  | nil => intro _ _; simp
  | cons a t ih =>
    intro himp hdis
    have ihh := ih (fun a' ha' => himp a' (List.mem_cons_of_mem _ ha'))
      (fun a' ha' => hdis a' (List.mem_cons_of_mem _ ha'))
    rw [List.countP_cons, List.countP_cons, List.countP_cons, List.countP_cons,
      List.countP_cons, List.countP_cons]
    have hstep : (if p1 a = true then (1 : Nat) else 0) + (if p2 a = true then 1 else 0) +
        (if p3 a = true then 1 else 0) + (if p4 a = true then 1 else 0) +
        (if p5 a = true then 1 else 0) ≤ (if q a = true then 1 else 0) := by
      obtain ⟨hq1, hq2, hq3, hq4, hq5⟩ := himp a (List.mem_cons_self _ _)
      obtain ⟨d12, d13, d14, d15, d23, d24, d25, d34, d35, d45⟩ :=
        hdis a (List.mem_cons_self _ _)
      cases h1 : p1 a <;> cases h2 : p2 a <;> cases h3 : p3 a <;> cases h4 : p4 a <;>
        cases h5 : p5 a <;> simp_all
    omega

/-- Core counting bound for the main branch of `resize_grid`: the copy step,
the four band placements, and the overflow placement together never create
more `k`-tagged cells than the old grid had. -/
theorem resize_pipeline_le (k : CategoryId) (old : Grid)
    (nw nh xs xe ys ye xoff yoff bwpx bhpx : Nat)
    (hrect : Rect old (gridWidth old)) (hxs : xs ≤ xe) (hys : ys ≤ ye) :
    countCat k (place_overflow
      (place_bottom_band
        (place_top_band
          (place_right_band
            (place_left_band
              ((copyCells xs xe ys ye).foldl
                (fun g yx => setCell g (yx.1 - ys + yoff) (yx.2 - xs + xoff)
                  (cell old yx.1 yx.2))
                (emptyGrid nw nh))
              (classify_lost_grains old xs xe ys ye).left bwpx)
            (classify_lost_grains old xs xe ys ye).right bwpx)
          (classify_lost_grains old xs xe ys ye).top bhpx)
        (classify_lost_grains old xs xe ys ye).bottom bhpx)
      ((classify_lost_grains old xs xe ys ye).left.drop (bwpx * nh) ++
        (classify_lost_grains old xs xe ys ye).right.drop (bwpx * nh) ++
        (classify_lost_grains old xs xe ys ye).top.drop (bhpx * nw) ++
        (classify_lost_grains old xs xe ys ye).bottom.drop (bhpx * nw))) ≤
    countCat k old := by
  set L := classify_lost_grains old xs xe ys ye with hLdef
  set g0 := (copyCells xs xe ys ye).foldl
    (fun g yx => setCell g (yx.1 - ys + yoff) (yx.2 - xs + xoff) (cell old yx.1 yx.2))
    (emptyGrid nw nh) with hg0
  set g1 := place_left_band g0 L.left bwpx with hg1
  set g2 := place_right_band g1 L.right bwpx with hg2
  set g3 := place_top_band g2 L.top bhpx with hg3
  set g4 := place_bottom_band g3 L.bottom bhpx with hg4
  have h0len : g0.length = nh := by
    rw [hg0]
    have h := (shape_copyFold old (fun yx => yx.1 - ys + yoff) (fun yx => yx.2 - xs + xoff)
      (copyCells xs xe ys ye) (emptyGrid nw nh)).1
    rw [length_emptyGrid] at h
    exact h
  have h0w : gridWidth g0 ≤ nw := by
    rw [hg0]
    have h := (shape_copyFold old (fun yx => yx.1 - ys + yoff) (fun yx => yx.2 - xs + xoff)
      (copyCells xs xe ys ye) (emptyGrid nw nh)).2
    exact h.trans_le (gridWidth_emptyGrid_le nw nh)
  have h1len : g1.length = nh := by
    rw [hg1]
    show (fillCells g0 (leftBandCells g0.length bwpx) L.left).length = nh
    rw [(shape_fillCells _ _ _).1, h0len]
  have h1w : gridWidth g1 ≤ nw := by
    rw [hg1]
    show gridWidth (fillCells g0 (leftBandCells g0.length bwpx) L.left) ≤ nw
    rw [(shape_fillCells _ _ _).2]
    exact h0w
  have h2len : g2.length = nh := by
    rw [hg2]
    show (fillCells g1 (rightBandCells g1.length (gridWidth g1) bwpx) L.right).length = nh
    rw [(shape_fillCells _ _ _).1, h1len]
  have h2w : gridWidth g2 ≤ nw := by
    rw [hg2]
    show gridWidth (fillCells g1 (rightBandCells g1.length (gridWidth g1) bwpx) L.right) ≤ nw
    rw [(shape_fillCells _ _ _).2]
    exact h1w
  have h3len : g3.length = nh := by
    rw [hg3]
    show (fillCells g2 (topBandCells bhpx (gridWidth g2)) L.top).length = nh
    rw [(shape_fillCells _ _ _).1, h2len]
  have h3w : gridWidth g3 ≤ nw := by
    rw [hg3]
    show gridWidth (fillCells g2 (topBandCells bhpx (gridWidth g2)) L.top) ≤ nw
    rw [(shape_fillCells _ _ _).2]
    exact h2w
  have hb0 : countCat k g0 ≤
      (copyCells xs xe ys ye).countP (fun yx => cell old yx.1 yx.2 = some k) := by
    rw [hg0]
    have h := copyFold_le k old (fun yx => yx.1 - ys + yoff) (fun yx => yx.2 - xs + xoff)
      (copyCells xs xe ys ye) (emptyGrid nw nh)
    rw [countCat_emptyGrid, Nat.zero_add] at h
    exact h
  have hb1 : countCat k g1 ≤ countCat k g0 + countCatL k (L.left.take (bwpx * nh)) := by
    rw [hg1]
    show countCat k (fillCells g0 (leftBandCells g0.length bwpx) L.left) ≤ _
    have hlen : (leftBandCells g0.length bwpx).length = nh * bwpx := by
      rw [length_leftBandCells, h0len]
    have h := fillCells_le k (leftBandCells g0.length bwpx) g0 L.left
    rw [hlen] at h
    exact h.trans (Nat.add_le_add_left
      (countCatL_take_mono k L.left (nh * bwpx) (bwpx * nh) (Nat.mul_comm nh bwpx).le) _)
  have hb2 : countCat k g2 ≤ countCat k g1 + countCatL k (L.right.take (bwpx * nh)) := by
    rw [hg2]
    show countCat k (fillCells g1 (rightBandCells g1.length (gridWidth g1) bwpx) L.right) ≤ _
    have hlen : (rightBandCells g1.length (gridWidth g1) bwpx).length =
        nh * (gridWidth g1 - (gridWidth g1 - bwpx)) := by
      rw [length_rightBandCells, h1len]
    have h := fillCells_le k (rightBandCells g1.length (gridWidth g1) bwpx) g1 L.right
    rw [hlen] at h
    have hle : nh * (gridWidth g1 - (gridWidth g1 - bwpx)) ≤ bwpx * nh := by
      calc nh * (gridWidth g1 - (gridWidth g1 - bwpx)) ≤ nh * bwpx :=
            Nat.mul_le_mul_left nh (by omega)
        _ = bwpx * nh := Nat.mul_comm ..
    exact h.trans (Nat.add_le_add_left (countCatL_take_mono k L.right _ _ hle) _)
  have hb3 : countCat k g3 ≤ countCat k g2 + countCatL k (L.top.take (bhpx * nw)) := by
    rw [hg3]
    show countCat k (fillCells g2 (topBandCells bhpx (gridWidth g2)) L.top) ≤ _
    have hlen : (topBandCells bhpx (gridWidth g2)).length = bhpx * gridWidth g2 :=
      length_topBandCells ..
    have h := fillCells_le k (topBandCells bhpx (gridWidth g2)) g2 L.top
    rw [hlen] at h
    have hle : bhpx * gridWidth g2 ≤ bhpx * nw := Nat.mul_le_mul_left bhpx h2w
    exact h.trans (Nat.add_le_add_left (countCatL_take_mono k L.top _ _ hle) _)
  have hb4 : countCat k g4 ≤ countCat k g3 + countCatL k (L.bottom.take (bhpx * nw)) := by
    rw [hg4]
    show countCat k (fillCells g3 (bottomBandCells g3.length (gridWidth g3) bhpx) L.bottom) ≤ _
    have hlen : (bottomBandCells g3.length (gridWidth g3) bhpx).length =
        (g3.length - (g3.length - bhpx)) * gridWidth g3 :=
      length_bottomBandCells ..
    have h := fillCells_le k (bottomBandCells g3.length (gridWidth g3) bhpx) g3 L.bottom
    rw [hlen] at h
    have hle : (g3.length - (g3.length - bhpx)) * gridWidth g3 ≤ bhpx * nw :=
      Nat.mul_le_mul (by omega) h3w
    exact h.trans (Nat.add_le_add_left (countCatL_take_mono k L.bottom _ _ hle) _)
  have hb5 := place_overflow_le k
    (L.left.drop (bwpx * nh) ++ L.right.drop (bwpx * nh) ++
      L.top.drop (bhpx * nw) ++ L.bottom.drop (bhpx * nw)) g4
  have hrem : countCatL k (L.left.drop (bwpx * nh) ++ L.right.drop (bwpx * nh) ++
      L.top.drop (bhpx * nw) ++ L.bottom.drop (bhpx * nw)) =
      countCatL k (L.left.drop (bwpx * nh)) + countCatL k (L.right.drop (bwpx * nh)) +
      countCatL k (L.top.drop (bhpx * nw)) + countCatL k (L.bottom.drop (bhpx * nw)) := by
    rw [countCatL_append, countCatL_append, countCatL_append]
  have hsL := countCatL_take_drop k L.left (bwpx * nh)
  have hsR := countCatL_take_drop k L.right (bwpx * nh)
  have hsT := countCatL_take_drop k L.top (bhpx * nw)
  have hsB := countCatL_take_drop k L.bottom (bhpx * nw)
  have hLl : L.left = leftSpec old xs := by rw [hLdef, classify_eq_spec]
  have hLr : L.right = rightSpec old xe := by rw [hLdef, classify_eq_spec]
  have hLt : L.top = topSpec old xs xe ys := by rw [hLdef, classify_eq_spec]
  have hLb : L.bottom = bottomSpec old xs xe ye := by rw [hLdef, classify_eq_spec]
  have hcl : countCatL k L.left = (rowMajor old.length (gridWidth old)).countP
      (fun yx => yx.2 < xs ∧ cell old yx.1 yx.2 = some k) := by
    rw [hLl]
    exact countCatL_filterMap_cond k old _ (fun yx => yx.2 < xs)
  have hcr : countCatL k L.right = (rowMajor old.length (gridWidth old)).countP
      (fun yx => xe ≤ yx.2 ∧ cell old yx.1 yx.2 = some k) := by
    rw [hLr]
    exact countCatL_filterMap_cond k old _ (fun yx => xe ≤ yx.2)
  have hct : countCatL k L.top = (rowMajor old.length (gridWidth old)).countP
      (fun yx => (xs ≤ yx.2 ∧ yx.2 < xe ∧ yx.1 < ys) ∧ cell old yx.1 yx.2 = some k) := by
    rw [hLt]
    exact countCatL_filterMap_cond k old _ (fun yx => xs ≤ yx.2 ∧ yx.2 < xe ∧ yx.1 < ys)
  have hcb : countCatL k L.bottom = (rowMajor old.length (gridWidth old)).countP
      (fun yx => (xs ≤ yx.2 ∧ yx.2 < xe ∧ ye ≤ yx.1) ∧ cell old yx.1 yx.2 = some k) := by
    rw [hLb]
    exact countCatL_filterMap_cond k old _ (fun yx => xs ≤ yx.2 ∧ yx.2 < xe ∧ ye ≤ yx.1)
  have hwin := copy_window_le k old xs xe ys ye hrect
  have hdisj := countP_five_disjoint_le
    (fun yx => decide ((xs ≤ yx.2 ∧ yx.2 < xe ∧ ys ≤ yx.1 ∧ yx.1 < ye) ∧
      cell old yx.1 yx.2 = some k))
    (fun yx => decide (yx.2 < xs ∧ cell old yx.1 yx.2 = some k))
    (fun yx => decide (xe ≤ yx.2 ∧ cell old yx.1 yx.2 = some k))
    (fun yx => decide ((xs ≤ yx.2 ∧ yx.2 < xe ∧ yx.1 < ys) ∧ cell old yx.1 yx.2 = some k))
    (fun yx => decide ((xs ≤ yx.2 ∧ yx.2 < xe ∧ ye ≤ yx.1) ∧ cell old yx.1 yx.2 = some k))
    (fun yx => decide (cell old yx.1 yx.2 = some k))
    (rowMajor old.length (gridWidth old))
    (by
      intro a _
      refine ⟨?_, ?_, ?_, ?_, ?_⟩ <;>
        · simp only [decide_eq_true_eq]
          exact fun h => by simp [h.2])
    (by
      intro a _
      refine ⟨?_, ?_, ?_, ?_, ?_, ?_, ?_, ?_, ?_, ?_⟩ <;>
        · rintro ⟨h1, h2⟩
          simp only [decide_eq_true_eq] at h1 h2
          omega)
  rw [hg4] at hb5
  calc countCat k (place_overflow g4 (L.left.drop (bwpx * nh) ++
      L.right.drop (bwpx * nh) ++ L.top.drop (bhpx * nw) ++ L.bottom.drop (bhpx * nw))) ≤
      countCat k g4 + countCatL k (L.left.drop (bwpx * nh) ++ L.right.drop (bwpx * nh) ++
        L.top.drop (bhpx * nw) ++ L.bottom.drop (bhpx * nw)) := by rw [hg4]; exact hb5
    _ ≤ countCat k old := by
      rw [← countCat_eq_rowMajor k old hrect]
      omega

/-- C7: resize never retags a grain — for every (rectangular) old grid, target
dimensions, sub-cell factors and category `k`, the number of `k`-tagged cells
produced by `resize_grid` is at most the number of `k`-tagged cells in the old
grid; consequently a category absent from the old grid never appears in the
new grid.  Every grain is relocated with its tag intact or dropped. -/
theorem C7_resize_never_retags (old : Grid) (new_w new_h dw dh : Nat) (k : CategoryId)
    (hrect : Rect old (gridWidth old)) :
    countCat k (resize_grid old new_w new_h dw dh) ≤ countCat k old ∧
    (countCat k old = 0 → countCat k (resize_grid old new_w new_h dw dh) = 0) := by
  have hmain : countCat k (resize_grid old new_w new_h dw dh) ≤ countCat k old := by
    simp only [resize_grid]
    split_ifs with h1 h2
    · rw [countCat_emptyGrid]
      exact Nat.zero_le _
    · exact Nat.le_refl _
    all_goals
      exact resize_pipeline_le k old new_w new_h _ _ _ _ _ _ _ _ hrect
        (kept_window_le _ _) (kept_window_le _ _)
  exact ⟨hmain, fun h0 => by omega⟩

def c7_old : Grid := [[some 1, none], [some 1, some 2]]

/-- C7 at a concrete input: a 2×2 grid with three grains (two of category 1,
one of category 2) grown to 16×32 sub-cells keeps at most the old per-category
counts. -/
theorem C7_resize_never_retags_witness :
    countCat 1 (resize_grid c7_old 16 32 dot_width dot_height) ≤ countCat 1 c7_old ∧
    (countCat 1 c7_old = 0 → countCat 1 (resize_grid c7_old 16 32 dot_width dot_height) = 0) :=
  C7_resize_never_retags c7_old 16 32 dot_width dot_height 1 (by decide)

def c10_state : SandState := ⟨1, 0, 5, [⟨0, 0, 1⟩]⟩

def c10_engine : SandEngine := ⟨setCell (emptyGrid 4 4) 1 1 (some 2), 4, 4, 0, 1⟩

/-- C10 at a concrete input: restoring a version-1 snapshot with
`grid_width = 0` into an engine holding one grain clears every cell, zeroes
`grain_count`, and keeps the live grid's shape. -/
theorem C10_restore_zero_dims_clears_witness :
    (c10_engine.restore_state c10_state [0, 1]).grain_count = 0 ∧
    (c10_engine.restore_state c10_state [0, 1]).grid.length = c10_engine.grid.length ∧
    (∀ y, (((c10_engine.restore_state c10_state [0, 1]).grid.getD y []).length =
      (c10_engine.grid.getD y []).length)) ∧
    (∀ y x, cell (c10_engine.restore_state c10_state [0, 1]).grid y x = none) ∧
    (c10_engine.restore_state c10_state [0, 1]).width = c10_engine.width ∧
    (c10_engine.restore_state c10_state [0, 1]).height = c10_engine.height :=
  C10_restore_zero_dims_clears c10_engine c10_state [0, 1] (by decide) (by decide)

end Strata
